import Mathlib

/-!
Verification of the realtime speech-streaming coordination core of Nova-Voice.

Shallow embedding of the gateway's session engine, job dispatcher, result
router, dual-VAD combiner and session persistence, translated from
`backend/gateway/gateway.py`, `backend/gateway/redis_service.py`,
`backend/gateway/vad.py`, `gateway/session.py` and
`gateway/websocket_handler.py`.

Modelling conventions:
* bytes are `Fin 256`; byte strings are `List Byte`;
* Python `float` time values are rationals (`ℚ`); every value a Python float
  can take is a dyadic rational, which is what the persistence round-trip
  theorem assumes;
* Python `int` fields of the session dataclass are `ℤ`;
* the Redis AUDIO_JOBS stream is a `List Job`; `xlen` is `List.length`;
  `xadd` is an append;
* fallible operations return `Option`;
* the VAD models themselves (WebRTC / Silero inference) are out of scope per
  the spec and enter as oracle parameters giving each model's verdict;
* wall-clock reads (`time.time()`) enter as an explicit `now : ℚ` parameter,
  and the VAD verdict for the chunk enters as a `has_speech : Bool` parameter
  where `gateway.py` calls `self.detect_speech_activity`.
-/

namespace NovaVoice

abbrev Byte := Fin 256

/-- Configuration record, defaults from `backend/gateway/config.py`. -/
structure Config where
  SILENCE_THRESHOLD_SECONDS : ℚ := 1
  SAMPLE_RATE : ℕ := 16000
  PRE_SPEECH_BUFFER_SECONDS : ℚ := 2
  MINIMUM_NEW_AUDIO_SECONDS : ℚ := 1
  MAX_QUEUE_DEPTH : ℕ := 100
  MAX_AUDIO_BUFFER_SECONDS : ℚ := 10
  SEND_FINAL_JOB_ON_MAX_BUFFER : Bool := true
  DEFAULT_SOURCE_LANGUAGE : String := "en"
  DEFAULT_TARGET_LANGUAGE : String := "vi"
deriving DecidableEq

def defaultConfig : Config := {}

/-- `session.py` `SpeechState`. -/
inductive SpeechState
  | INACTIVE
  | ACTIVE
  | SILENCE
deriving DecidableEq

/-- `session.py` `SpeechSession` dataclass; buffers are byte lists, times ℚ. -/
structure SpeechSession where
  state : SpeechState := .INACTIVE
  audio_buffer : List Byte := []
  pre_speech_buffer : List Byte := []
  silence_start_time : Option ℚ := none
  session_start_time : Option ℚ := none
  accumulated_audio_bytes : ℤ := 0
  last_stt_send_time : Option ℚ := none
  last_published_len : ℤ := 0
  silence_buffer_start_len : ℤ := 0
  source_lang : String := "en"
  target_lang : String := "vi"
  translation_enabled : Bool := true
deriving DecidableEq

/-- `SpeechSession.start_speech`. -/
def SpeechSession.start_speech (now : ℚ) (s : SpeechSession) : SpeechSession :=
  { s with state := .ACTIVE, session_start_time := some now,
           silence_start_time := none, silence_buffer_start_len := 0,
           last_published_len := 0 }

/-- `SpeechSession.end_speech_session`. -/
def SpeechSession.end_speech_session (s : SpeechSession) : SpeechSession :=
  { s with state := .INACTIVE, audio_buffer := [], pre_speech_buffer := [],
           silence_start_time := none, session_start_time := none,
           accumulated_audio_bytes := 0, last_stt_send_time := none,
           last_published_len := 0, silence_buffer_start_len := 0 }

/-- Job envelope appended to the AUDIO_JOBS stream
(`redis_service.py` `publish_audio_job`); the nondeterministic `job_id`,
`segment_id` and `timestamp` fields are not modelled. -/
structure Job where
  audio : List Byte
  is_final : Bool
  source_lang : String
  target_lang : String
  translation_enabled : Bool
deriving DecidableEq

/-- `int(PRE_SPEECH_BUFFER_SECONDS * SAMPLE_RATE * 2)` (`gateway.py` line 235). -/
def pre_speech_max_bytes (cfg : Config) : ℕ :=
  ⌊cfg.PRE_SPEECH_BUFFER_SECONDS * cfg.SAMPLE_RATE * 2⌋.toNat

/-- `int(MAX_AUDIO_BUFFER_SECONDS * SAMPLE_RATE * 2)` (`gateway.py` line 250). -/
def max_audio_buffer_bytes (cfg : Config) : ℕ :=
  ⌊cfg.MAX_AUDIO_BUFFER_SECONDS * cfg.SAMPLE_RATE * 2⌋.toNat

/-- `RedisService.publish_audio_job`: skip on empty buffer, drop when the
stream depth exceeds `MAX_QUEUE_DEPTH`, otherwise append a job carrying the
full `audio_buffer`. Second component is whether a stream id was returned. -/
def publish_audio_job (cfg : Config) (stream : List Job) (s : SpeechSession)
    (is_final : Bool) : List Job × Bool :=
  if s.audio_buffer.length = 0 then (stream, false)
  else if stream.length > cfg.MAX_QUEUE_DEPTH then (stream, false)
  else (stream ++ [⟨s.audio_buffer, is_final, s.source_lang, s.target_lang,
                   s.translation_enabled⟩], true)

/-- Outcome of `GatewayService.publish_job_if_needed`. -/
structure PublishOutcome where
  stream : List Job
  sess : SpeechSession
  in_flight : Bool
  returned : Bool
deriving DecidableEq

/-- The "new speech" byte count of `publish_job_if_needed` (lines 184-194):
audio after the silence marker when one is ahead of the published mark,
otherwise all unpublished audio. -/
def new_speech_bytes (s : SpeechSession) : ℤ :=
  if s.silence_buffer_start_len > 0 ∧
      s.silence_buffer_start_len > s.last_published_len then
    max 0 ((s.audio_buffer.length : ℤ) - s.silence_buffer_start_len)
  else (s.audio_buffer.length : ℤ) - s.last_published_len

/-- `GatewayService.publish_job_if_needed` (gateway.py lines 176-215), acting
on one client's session, in-flight flag and the AUDIO_JOBS stream. -/
def publish_job_if_needed (cfg : Config) (stream : List Job) (in_flight : Bool)
    (s : SpeechSession) (is_final force_publish : Bool) : PublishOutcome :=
  let buffer_has_new_data : Prop :=
    (s.audio_buffer.length : ℤ) > s.last_published_len
  let new_speech_seconds : ℚ := (new_speech_bytes s : ℚ) / (cfg.SAMPLE_RATE * 2)
  let new_audio_meets_minimum : Prop :=
    new_speech_seconds ≥ cfg.MINIMUM_NEW_AUDIO_SECONDS
  if (force_publish = true ∨ in_flight = false) ∧ buffer_has_new_data ∧
      (force_publish = true ∨ new_audio_meets_minimum) then
    -- the stream-id returned by the Redis layer is discarded here, exactly as
    -- in the source: the markers advance whether or not the job was appended
    let stream' := (publish_audio_job cfg stream s is_final).1
    let s' := { s with last_published_len := (s.audio_buffer.length : ℤ),
                       silence_buffer_start_len := 0 }
    let in_flight' := if is_final = false then true else in_flight
    ⟨stream', s', in_flight', true⟩
  else ⟨stream, s, in_flight, false⟩

/-- Outcome of `GatewayService.process_audio_chunk`. -/
structure ChunkOutcome where
  sess : SpeechSession
  in_flight : Bool
  stream : List Job
  returned : Bool
deriving DecidableEq

/-- The non-final publish phase of `process_audio_chunk` (lines 326-338):
inside a silence period no job is sent, otherwise `publish_job_if_needed`
runs with `is_final=False`. -/
def non_final_publish_phase (cfg : Config) (stream : List Job)
    (in_flight : Bool) (s : SpeechSession) : ChunkOutcome :=
  let in_silence_period : Prop :=
    s.silence_start_time ≠ none ∧ s.silence_buffer_start_len > 0 ∧
      (s.audio_buffer.length : ℤ) > s.silence_buffer_start_len
  if in_silence_period then ⟨s, in_flight, stream, false⟩
  else
    let out := publish_job_if_needed cfg stream in_flight s false false
    ⟨out.sess, out.in_flight, out.stream, false⟩

/-- The rolling pre-speech buffer update of `process_audio_chunk`
(lines 234-241): append the chunk, then drop the excess from the front. -/
def trimmed_pre (cfg : Config) (pre chunk : List Byte) : List Byte :=
  let ps0 := pre ++ chunk
  if ps0.length > pre_speech_max_bytes cfg then
    ps0.drop (ps0.length - pre_speech_max_bytes cfg)
  else ps0

/-- The speech-handling phase of `process_audio_chunk` (lines 253-272):
activation from INACTIVE (prepend pre-speech buffer), resume from SILENCE
(mark, then `start_speech` — which immediately clears the marker again,
exactly as in the source), or a plain silence-timer reset while ACTIVE. -/
def speech_phase (now : ℚ) (has_speech : Bool) (s1 : SpeechSession) :
    SpeechSession :=
  if has_speech then
    match s1.state with
    | .INACTIVE =>
        let s := { s1 with
          audio_buffer := s1.audio_buffer ++ s1.pre_speech_buffer,
          accumulated_audio_bytes :=
            s1.accumulated_audio_bytes + s1.pre_speech_buffer.length }
        { s.start_speech now with silence_start_time := some now }
    | .SILENCE =>
        let s := { s1 with
          silence_buffer_start_len := (s1.audio_buffer.length : ℤ) }
        { s.start_speech now with silence_start_time := some now }
    | .ACTIVE => { s1 with silence_start_time := some now }
  else s1

/-- The speech-to-silence transition of `process_audio_chunk`
(lines 274-280): on the first silent chunk while ACTIVE, start the silence
timer and record the marker at the current buffer length. -/
def silence_open_phase (now : ℚ) (has_speech : Bool) (s2 : SpeechSession) :
    SpeechSession :=
  if s2.state = SpeechState.ACTIVE ∧ has_speech = false ∧
      s2.silence_start_time = none then
    { s2 with silence_start_time := some now,
              silence_buffer_start_len := (s2.audio_buffer.length : ℤ) }
  else s2

/-- `GatewayService.process_audio_chunk` (gateway.py lines 226-342).
`has_speech` is the dual-VAD verdict for `chunk` and `now` the wall clock at
this call; both are parameters of the embedding. -/
def process_audio_chunk (cfg : Config) (stream : List Job) (in_flight : Bool)
    (s0 : SpeechSession) (chunk : List Byte) (has_speech : Bool) (now : ℚ) :
    ChunkOutcome :=
  let s1 := { s0 with
    pre_speech_buffer := trimmed_pre cfg s0.pre_speech_buffer chunk }
  let s3 := silence_open_phase now has_speech (speech_phase now has_speech s1)
  if s3.state = SpeechState.ACTIVE then
    -- accumulate all audio while ACTIVE (lines 282-288)
    let s4 := { s3 with audio_buffer := s3.audio_buffer ++ chunk,
                        accumulated_audio_bytes :=
                          s3.accumulated_audio_bytes + chunk.length }
    if s4.audio_buffer.length > max_audio_buffer_bytes cfg then
      -- max buffer overflow (lines 291-301): the in-flight flag is NOT
      -- cleared on this path
      let out :=
        if cfg.SEND_FINAL_JOB_ON_MAX_BUFFER then
          publish_job_if_needed cfg stream in_flight s4 true true
        else ⟨stream, s4, in_flight, false⟩
      ⟨out.sess.end_speech_session, out.in_flight, out.stream, true⟩
    else
      match s4.silence_start_time with
      | some t =>
          if now - t ≥ cfg.SILENCE_THRESHOLD_SECONDS then
            -- silence timeout (lines 314-324): in-flight cleared first
            let out := publish_job_if_needed cfg stream false s4 true true
            ⟨out.sess.end_speech_session, out.in_flight, out.stream, true⟩
          else non_final_publish_phase cfg stream in_flight s4
      | none => non_final_publish_phase cfg stream in_flight s4
  else ⟨s3, in_flight, stream, false⟩

/-! ## Dual VAD (`backend/gateway/vad.py`)

The WebRTC and Silero models are external (spec §1); they enter as oracles:
`wf` gives the WebRTC per-frame verdict (`webrtc_vad_model.is_speech`), `sv`
the Silero verdict the inference computes for a chunk (the probability
threshold and windowing of `_is_silero_speech` folded into the oracle).
`_check_voice_activity` starts the Silero inference on a separate thread and
never joins it; the scheduling parameter `silero_done_before_read` says
whether that thread finished before `detect_speech_activity` reads the flags.
The returned state is the eventual one, after the spawned inference
completes. -/

/-- Detector state: the three flags of `VoiceActivityDetector`. -/
structure VadState where
  is_webrtc_speech_active : Bool
  is_silero_speech_active : Bool
  silero_working : Bool
deriving DecidableEq

/-- Fuel-driven splitter for the 10 ms frames of `_is_webrtc_speech`. -/
def webrtcFramesAux : ℕ → List Byte → List (List Byte)
  | 0, _ => []
  | fuel + 1, l =>
      if 320 ≤ l.length then l.take 320 :: webrtcFramesAux fuel (l.drop 320)
      else []

/-- The 10 ms frames of `_is_webrtc_speech`: consecutive complete 320-byte
(160-sample) windows. -/
def webrtcFrames (l : List Byte) : List (List Byte) :=
  webrtcFramesAux l.length l

/-- `_is_webrtc_speech` with the default `all_frames_must_be_true=False`
(the only way it is called): early-out TRUE as soon as any frame is speech. -/
def webrtc_chunk_verdict (wf : List Byte → Bool) (chunk : List Byte) : Bool :=
  (webrtcFrames chunk).any wf

/-- `VoiceActivityDetector.detect_speech_activity` together with
`_check_voice_activity` (vad.py lines 116-136). Returns the verdict and the
eventual detector state. -/
def detect_speech_activity (wf sv : List Byte → Bool) (st : VadState)
    (chunk : List Byte) (silero_done_before_read : Bool) : Bool × VadState :=
  if chunk.length = 0 then (false, st)
  else
    let w := webrtc_chunk_verdict wf chunk
    let st1 : VadState := { st with is_webrtc_speech_active := w }
    -- `_check_voice_activity`: spawn `_is_silero_speech` in a thread, no join
    let spawned := w && !st1.silero_working
    let readState : VadState :=
      if spawned && silero_done_before_read then
        { st1 with is_silero_speech_active := sv chunk, silero_working := false }
      else if spawned then { st1 with silero_working := true }
      else st1
    let finalState : VadState :=
      if spawned then
        { st1 with is_silero_speech_active := sv chunk, silero_working := false }
      else st1
    (readState.is_webrtc_speech_active && readState.is_silero_speech_active,
     finalState)

/-! ## Result router (`gateway/websocket_handler.py`) -/

/-- A parsed result envelope as seen by `forward_result_to_client`; the
`segment_id` is after the `int(...)`-with-fallback parse and `is_final` after
the string-coercion of lines 333-337. -/
structure ResultMsg where
  client_id_present : Bool
  segment_id : ℤ
  text : String
  translation : String
  is_final : Bool
deriving DecidableEq

/-- Truthiness of `(result_data.get("translation") or "").strip()`: the
string contains a non-whitespace character. -/
def stripped_nonempty (s : String) : Bool :=
  s.data.any (fun c => !c.isWhitespace)

/-- Per-client router view: the loaded session, the two in-memory maps of
`RedisService` restricted to this client, the transport, and the stream. -/
structure RouterState where
  sess : SpeechSession
  latest_segment_id_sent : ℤ
  job_in_flight : Bool
  websocket_present : Bool
  stream : List Job
deriving DecidableEq

/-- Outcome of `forward_result_to_client`: new state, whether a `realtime`
frame was sent, whether an `utterance_end` frame was sent. -/
structure RouterOutcome where
  st : RouterState
  sent_realtime : Bool
  sent_utterance_end : Bool
deriving DecidableEq

/-- `WebSocketHandler.forward_result_to_client` (lines 262-390).
Transport failures and the marker-only `hset` are not modelled. -/
def forward_result_to_client (cfg : Config) (st : RouterState) (r : ResultMsg) :
    RouterOutcome :=
  if r.client_id_present = false then ⟨st, false, false⟩
  else
    let translation_enabled := st.sess.translation_enabled
    let is_translation_result := stripped_nonempty r.translation
    let should_unlock_job := !translation_enabled || is_translation_result
    let last_sent := st.latest_segment_id_sent
    let should_forward : Prop :=
      if translation_enabled then
        r.segment_id > last_sent ∧ is_translation_result = true
      else r.segment_id > last_sent
    if should_forward then
      let latest' := if r.segment_id > last_sent then r.segment_id else last_sent
      let sent_realtime := st.websocket_present
      let sent_ue :=
        st.websocket_present && (r.is_final && should_unlock_job)
      let in_flight1 := if should_unlock_job then false else st.job_in_flight
      if should_unlock_job = true ∧
          (st.sess.audio_buffer.length : ℤ) > st.sess.last_published_len then
        let out := publish_job_if_needed cfg st.stream in_flight1 st.sess
          false false
        ⟨⟨out.sess, latest', out.in_flight, st.websocket_present, out.stream⟩,
          sent_realtime, sent_ue⟩
      else
        ⟨⟨st.sess, latest', in_flight1, st.websocket_present, st.stream⟩,
          sent_realtime, sent_ue⟩
    else ⟨st, false, false⟩

/-! ## Scalar serialization (`gateway/session.py` `to_dict` / `from_dict`)

Python `str`/`int`/`float` conversions modelled at the character-list level.
The `float()` model covers plain decimal literals (sign, digits, one point);
Python additionally accepts exponents and `inf`/`nan`, which never occur in
values produced by `to_dict` for the magnitudes stored here. -/

/-- Digit `d` (< 10) as a character. -/
def digitChar (d : ℕ) : Char := Char.ofNat (48 + d)

/-- Is `c` one of `'0'..'9'`. -/
def isDigitChar (c : Char) : Bool := decide ('0' ≤ c) && decide (c ≤ '9')

/-- Value of a big-endian digit string (garbage on non-digits). -/
def digitsVal (l : List Char) : ℕ :=
  l.foldl (fun a c => a * 10 + (c.toNat - 48)) 0

def allDigits (l : List Char) : Bool := l.all isDigitChar

/-- Fuel-driven digit emitter (least-significant first into `acc`). -/
def natCharsAux : ℕ → ℕ → List Char → List Char
  | 0, _, acc => acc
  | fuel + 1, n, acc =>
      let acc' := digitChar (n % 10) :: acc
      if n / 10 = 0 then acc' else natCharsAux fuel (n / 10) acc'

/-- Decimal digits of `n`, as Python `str` prints a natural. -/
def natChars (n : ℕ) : List Char := natCharsAux (n + 1) n []

/-- Python `str` on an int. -/
def intChars (n : ℤ) : List Char :=
  (if n < 0 then ['-'] else []) ++ natChars n.natAbs

def pyStrInt (n : ℤ) : String := ⟨intChars n⟩

/-- Strip leading and trailing whitespace (Python `int()`/`float()` accept
surrounded whitespace). -/
def stripChars (l : List Char) : List Char :=
  ((l.dropWhile Char.isWhitespace).reverse.dropWhile Char.isWhitespace).reverse

/-- Model of Python `int(s)`: optional sign then digits, else ValueError. -/
def pyIntChars (l : List Char) : Option ℤ :=
  match stripChars l with
  | [] => none
  | c :: rest =>
      if c = '-' then
        if rest ≠ [] ∧ allDigits rest = true then some (-(digitsVal rest : ℤ))
        else none
      else if c = '+' then
        if rest ≠ [] ∧ allDigits rest = true then some (digitsVal rest : ℤ)
        else none
      else if allDigits (c :: rest) = true then
        some (digitsVal (c :: rest) : ℤ)
      else none

def pyInt? (s : String) : Option ℤ := pyIntChars s.data

/-- Body of Python `float(s)` on the stripped character list: optional sign,
digits, at most one point, at least one digit. -/
def pyFloatCharsCore (s : List Char) : Option ℚ :=
  if s = [] then none
  else
    let c := s.headI
    let sgn : ℚ := if c = '-' then -1 else 1
    let l2 := if c = '-' ∨ c = '+' then s.tail else s
    let ip := l2.takeWhile (fun x => x ≠ '.')
    let r2 := l2.dropWhile (fun x => x ≠ '.')
    let frac := r2.tail
    if allDigits ip = true ∧ allDigits frac = true ∧ (ip ≠ [] ∨ frac ≠ []) then
      some (sgn *
        ((digitsVal ip : ℚ) + (digitsVal frac : ℚ) / 10 ^ frac.length))
    else none

/-- Model of Python `float(s)` on decimal literals. -/
def pyFloatChars (l : List Char) : Option ℚ := pyFloatCharsCore (stripChars l)

def pyFloat? (s : String) : Option ℚ := pyFloatChars s.data

/-- Fraction digits: `fp` left-padded with zeros to `k` digits. -/
def fracChars (k fp : ℕ) : List Char :=
  List.replicate (k - (natChars fp).length) '0' ++ natChars fp

/-- Fuel-driven base-2 logarithm (computable in the kernel). -/
def log2Fuel : ℕ → ℕ → ℕ
  | 0, _ => 0
  | fuel + 1, n => if n ≤ 1 then 0 else log2Fuel fuel (n / 2) + 1

/-- `Nat.log2` as a structurally recursive function. -/
def exactLog2 (n : ℕ) : ℕ := log2Fuel n n

/-- Python `str` on a float, for a dyadic rational: the exact finite decimal
expansion (Python prints the shortest decimal that parses back to the same
value; any exactly-parsing decimal is interchangeable for the round-trip). -/
def floatChars (q : ℚ) : List Char :=
  let k := exactLog2 q.den
  let t : ℤ := q.num * 5 ^ k
  let ip := t.natAbs / 10 ^ k
  let fp := t.natAbs % 10 ^ k
  (if q.num < 0 then ['-'] else []) ++ natChars ip ++ '.' :: fracChars k fp

def pyStrFloat (q : ℚ) : String := ⟨floatChars q⟩

/-- `to_dict` turns `None` into `""` and a float into its `str`. -/
def pyStrOptFloat : Option ℚ → String
  | none => ""
  | some q => pyStrFloat q

def pyLowerStr (s : String) : String := ⟨s.data.map Char.toLower⟩

/-- `SpeechState.value`. -/
def stateValue : SpeechState → String
  | .INACTIVE => "inactive"
  | .ACTIVE => "active"
  | .SILENCE => "silence"

/-- `SpeechState(value)`: `none` models the ValueError on unknown values. -/
def parseState (s : String) : Option SpeechState :=
  if s = "inactive" then some .INACTIVE
  else if s = "active" then some .ACTIVE
  else if s = "silence" then some .SILENCE
  else none

/-- Python `str(bool)`. -/
def pyStrBool (b : Bool) : String := if b then "True" else "False"

/-- The scalar hash stored at `session:<client_id>`: the fields `to_dict`
emits, each possibly absent when reading an arbitrary stored hash. -/
structure StoredScalars where
  state : Option String := none
  silence_start_time : Option String := none
  session_start_time : Option String := none
  accumulated_audio_bytes : Option String := none
  last_stt_send_time : Option String := none
  last_published_len : Option String := none
  silence_buffer_start_len : Option String := none
  source_lang : Option String := none
  target_lang : Option String := none
  translation_enabled : Option String := none
deriving DecidableEq

/-- `SpeechSession.to_dict` (session.py lines 44-65): buffers excluded, state
replaced by its value, every value stringified, `None` becoming `""`. -/
def SpeechSession.to_dict (s : SpeechSession) : StoredScalars where
  state := some (stateValue s.state)
  silence_start_time := some (pyStrOptFloat s.silence_start_time)
  session_start_time := some (pyStrOptFloat s.session_start_time)
  accumulated_audio_bytes := some (pyStrInt s.accumulated_audio_bytes)
  last_stt_send_time := some (pyStrOptFloat s.last_stt_send_time)
  last_published_len := some (pyStrInt s.last_published_len)
  silence_buffer_start_len := some (pyStrInt s.silence_buffer_start_len)
  source_lang := some s.source_lang
  target_lang := some s.target_lang
  translation_enabled := some (pyStrBool s.translation_enabled)

/-- The `audio_buffers` argument of `from_dict`. -/
structure BufferArgs where
  audio_buffer : Option (List Byte) := none
  pre_speech_buffer : Option (List Byte) := none
deriving DecidableEq

/-- `try: int(v) except: 0`, with the dataclass default for an absent key. -/
def intFieldVal (o : Option String) : ℤ :=
  match o with
  | none => 0
  | some v =>
      match pyInt? v with
      | some n => n
      | none => 0

/-- Lines 118-126 of session.py: `""` becomes `None`, otherwise
`try: float(v) except: None`; absent key keeps the `None` default. -/
def floatFieldVal (o : Option String) : Option ℚ :=
  match o with
  | none => none
  | some v =>
      if v = "" then none
      else
        match pyFloat? v with
        | some q => some q
        | none => none

/-- `SpeechSession.from_dict` (session.py lines 74-128). `none` models the
ValueError raised by `SpeechState(data['state'])` on an unknown state string;
every other stored value decodes without raising. -/
def SpeechSession.from_dict (d : StoredScalars) (bufs : BufferArgs) :
    Option SpeechSession :=
  -- `if audio_buffers:` — the dict is truthy iff some buffer key is present;
  -- in the falsy fallback the hash holds no buffer keys (to_dict pops them),
  -- so both buffers decode empty
  let hasBufs : Prop := bufs.audio_buffer ≠ none ∨ bufs.pre_speech_buffer ≠ none
  let ab := if hasBufs then bufs.audio_buffer.getD [] else []
  let pb := if hasBufs then bufs.pre_speech_buffer.getD [] else []
  let te := match d.translation_enabled with
    | none => true
    | some v => decide (pyLowerStr v = "true")
  let base : SpeechSession :=
    { state := .INACTIVE,
      audio_buffer := ab,
      pre_speech_buffer := pb,
      silence_start_time := floatFieldVal d.silence_start_time,
      session_start_time := floatFieldVal d.session_start_time,
      accumulated_audio_bytes := intFieldVal d.accumulated_audio_bytes,
      last_stt_send_time := floatFieldVal d.last_stt_send_time,
      last_published_len := intFieldVal d.last_published_len,
      silence_buffer_start_len := intFieldVal d.silence_buffer_start_len,
      source_lang := d.source_lang.getD "en",
      target_lang := d.target_lang.getD "vi",
      translation_enabled := te }
  match d.state with
  | none => some base
  | some sv => (parseState sv).map (fun st => { base with state := st })

/-! ## Session store (`backend/gateway/redis_service.py` lines 50-122) -/

/-- The three Redis keys of one client's persisted session. -/
structure SessionStore where
  scalars : Option StoredScalars := none
  audio_blob : Option (List Byte) := none
  pre_speech_blob : Option (List Byte) := none
deriving DecidableEq

/-- `RedisService.save_session`: hash-set the scalars; store each buffer as a
binary blob when non-empty, delete its key otherwise. -/
def save_session (_store : SessionStore) (s : SpeechSession) : SessionStore where
  scalars := some s.to_dict
  audio_blob := if s.audio_buffer ≠ [] then some s.audio_buffer else none
  pre_speech_blob :=
    if s.pre_speech_buffer ≠ [] then some s.pre_speech_buffer else none

/-- `RedisService.load_session`: fresh session on an empty hash, else
`from_dict` with the separately-loaded blobs (an empty blob is falsy and is
dropped, like a missing key). -/
def load_session (store : SessionStore) : Option SpeechSession :=
  match store.scalars with
  | none => some {}
  | some d =>
      let bufs : BufferArgs :=
        { audio_buffer :=
            store.audio_blob.bind (fun b => if b ≠ [] then some b else none),
          pre_speech_buffer :=
            store.pre_speech_blob.bind
              (fun b => if b ≠ [] then some b else none) }
      SpeechSession.from_dict d bufs

/-! ## Shared helper lemmas -/

/-- `publish_job_if_needed` either takes its publish branch (markers advance,
`in_flight` set for non-final jobs, the Redis layer consulted) or does
nothing. -/
lemma publish_spec (cfg : Config) (stream : List Job) (fl : Bool)
    (s : SpeechSession) (f p : Bool) :
    publish_job_if_needed cfg stream fl s f p =
      ⟨(publish_audio_job cfg stream s f).1,
       { s with last_published_len := (s.audio_buffer.length : ℤ),
                silence_buffer_start_len := 0 },
       (if f = false then true else fl), true⟩ ∨
    publish_job_if_needed cfg stream fl s f p = ⟨stream, s, fl, false⟩ := by
  unfold publish_job_if_needed
  dsimp only
  split
  · exact Or.inl rfl
  · exact Or.inr rfl

/-- The publish branch is taken iff the eligibility condition of
gateway.py line 198 holds. -/
lemma publish_returned_iff (cfg : Config) (stream : List Job) (fl : Bool)
    (s : SpeechSession) (f p : Bool) :
    (publish_job_if_needed cfg stream fl s f p).returned = true ↔
      ((p = true ∨ fl = false) ∧
        (s.audio_buffer.length : ℤ) > s.last_published_len ∧
        (p = true ∨ (new_speech_bytes s : ℚ) / (cfg.SAMPLE_RATE * 2) ≥
          cfg.MINIMUM_NEW_AUDIO_SECONDS)) := by
  unfold publish_job_if_needed
  dsimp only
  split
  next h => simpa using h
  next h => simpa using h

/-- A publish that returns `True` took the publish branch: the outcome is the
branch's explicit state. -/
lemma publish_of_returned (cfg : Config) (stream : List Job) (fl : Bool)
    (s : SpeechSession) (f p : Bool)
    (hret : (publish_job_if_needed cfg stream fl s f p).returned = true) :
    publish_job_if_needed cfg stream fl s f p =
      ⟨(publish_audio_job cfg stream s f).1,
       { s with last_published_len := (s.audio_buffer.length : ℤ),
                silence_buffer_start_len := 0 },
       (if f = false then true else fl), true⟩ := by
  rcases publish_spec cfg stream fl s f p with h | h
  · exact h
  · rw [h] at hret
    simp at hret

/-- With the queue over depth, the Redis layer appends nothing. -/
lemma publish_audio_job_overdepth (cfg : Config) (stream : List Job)
    (s : SpeechSession) (f : Bool)
    (hdepth : stream.length > cfg.MAX_QUEUE_DEPTH) :
    publish_audio_job cfg stream s f = (stream, false) := by
  unfold publish_audio_job
  split_ifs with h1
  · rfl
  · rfl

/-- With the queue over depth, `publish_job_if_needed` never changes the
stream, whichever branch it takes. -/
lemma publish_stream_overdepth (cfg : Config) (stream : List Job) (fl : Bool)
    (s : SpeechSession) (f p : Bool)
    (hdepth : stream.length > cfg.MAX_QUEUE_DEPTH) :
    (publish_job_if_needed cfg stream fl s f p).stream = stream := by
  rcases publish_spec cfg stream fl s f p with h | h <;> rw [h]
  dsimp only
  rw [publish_audio_job_overdepth cfg stream s f hdepth]

/-- `publish_job_if_needed` leaves the stream unchanged or appends the one
job built from the session, carrying the requested finality. -/
lemma publish_stream_cases (cfg : Config) (stream : List Job) (fl : Bool)
    (s : SpeechSession) (f p : Bool) :
    (publish_job_if_needed cfg stream fl s f p).stream = stream ∨
    (publish_job_if_needed cfg stream fl s f p).stream =
      stream ++ [⟨s.audio_buffer, f, s.source_lang, s.target_lang,
                 s.translation_enabled⟩] := by
  rcases publish_spec cfg stream fl s f p with h | h <;> rw [h]
  · unfold publish_audio_job
    dsimp only
    split
    · simp
    · split <;> simp
  · simp

/-- Every job that `publish_job_if_needed` appends has the requested
finality flag. -/
lemma publish_appended_final (cfg : Config) (stream : List Job) (fl : Bool)
    (s : SpeechSession) (f p : Bool) :
    ∀ j ∈ (publish_job_if_needed cfg stream fl s f p).stream.drop stream.length,
      j.is_final = f := by
  rcases publish_stream_cases cfg stream fl s f p with h | h <;> rw [h]
  · simp [List.drop_length]
  · rw [List.drop_left]
    simp

/-! ## C1 — backpressure drop -/

/-- Concrete counterexample state for C1: default configuration, a stream of
101 jobs (over `MAX_QUEUE_DEPTH = 100`), a session with exactly 1 s
(32000 bytes) of unpublished audio and no silence marker. -/
def c1xSess : SpeechSession :=
  { state := .ACTIVE, audio_buffer := List.replicate 32000 0,
    silence_start_time := some 0 }

def c1xStream : List Job := List.replicate 101 ⟨[0], false, "en", "vi", true⟩

/-- C1 (counterexample): at `c1xSess`/`c1xStream` the publish is eligible and
attempted while the stream depth (101) exceeds `MAX_QUEUE_DEPTH` (100). The
job is dropped (stream unchanged) — but, contrary to the claim, the publish
does not leave state unchanged: `in_flight` is set and `last_published_len`
advances to 32000. -/
theorem C1_counterexample :
    (publish_job_if_needed defaultConfig c1xStream false c1xSess false false).stream
      = c1xStream ∧
    (publish_job_if_needed defaultConfig c1xStream false c1xSess false false).returned
      = true ∧
    (publish_job_if_needed defaultConfig c1xStream false c1xSess false false).in_flight
      = true ∧
    (publish_job_if_needed defaultConfig c1xStream false c1xSess false false).sess.last_published_len
      = 32000 := by
  have hdepth : c1xStream.length > defaultConfig.MAX_QUEUE_DEPTH := by
    simp [c1xStream, defaultConfig]
  have hret : (publish_job_if_needed defaultConfig c1xStream false c1xSess
      false false).returned = true :=
    (publish_returned_iff defaultConfig c1xStream false c1xSess false false).mpr
      ⟨Or.inr rfl, by simp [c1xSess, -List.reduceReplicate], Or.inr (by
        simp [new_speech_bytes, c1xSess, defaultConfig, -List.reduceReplicate]
        norm_num)⟩
  have h := publish_of_returned defaultConfig c1xStream false c1xSess false false hret
  refine ⟨publish_stream_overdepth defaultConfig c1xStream false c1xSess false false hdepth,
    hret, ?_, ?_⟩
  · rw [h]
    rfl
  · rw [h]
    dsimp only
    simp [c1xSess, -List.reduceReplicate]

/-- C1 (amended): when the stream depth exceeds `MAX_QUEUE_DEPTH`, no job is
appended — but the dispatcher does not observe the drop: whenever its
eligibility check passes it still advances `last_published_len` to the buffer
length, resets `silence_buffer_start_len`, and marks the client in-flight for
a non-final publish. -/
theorem C1_amended (cfg : Config) (stream : List Job) (fl : Bool)
    (s : SpeechSession) (f p : Bool)
    (hdepth : stream.length > cfg.MAX_QUEUE_DEPTH)
    (hret : (publish_job_if_needed cfg stream fl s f p).returned = true) :
    (publish_job_if_needed cfg stream fl s f p).stream = stream ∧
    (publish_job_if_needed cfg stream fl s f p).sess.last_published_len
      = (s.audio_buffer.length : ℤ) ∧
    (publish_job_if_needed cfg stream fl s f p).sess.silence_buffer_start_len
      = 0 ∧
    (f = false → (publish_job_if_needed cfg stream fl s f p).in_flight = true) := by
  have h := publish_of_returned cfg stream fl s f p hret
  refine ⟨publish_stream_overdepth cfg stream fl s f p hdepth, ?_, ?_, ?_⟩
  · rw [h]
  · rw [h]
  · intro hf
    rw [h]
    simp [hf]

/-- Witness inputs for C1: queue cap 0, minimum 0, a one-byte buffer. -/
def c1wCfg : Config :=
  { defaultConfig with MAX_QUEUE_DEPTH := 0, MINIMUM_NEW_AUDIO_SECONDS := 0 }

def c1wSess : SpeechSession := { state := .ACTIVE, audio_buffer := [0] }

def c1wStream : List Job := [⟨[0], false, "en", "vi", true⟩]

/-- C1 (witness): the amended theorem applied at a concrete eligible publish
with the stream over depth. -/
theorem C1_witness :
    (publish_job_if_needed c1wCfg c1wStream false c1wSess false false).stream
      = c1wStream ∧
    (publish_job_if_needed c1wCfg c1wStream false c1wSess false false).sess.last_published_len
      = (c1wSess.audio_buffer.length : ℤ) ∧
    (publish_job_if_needed c1wCfg c1wStream false c1wSess false false).sess.silence_buffer_start_len
      = 0 ∧
    (false = false →
      (publish_job_if_needed c1wCfg c1wStream false c1wSess false false).in_flight
        = true) :=
  C1_amended c1wCfg c1wStream false c1wSess false false
    (by simp [c1wCfg, c1wStream, defaultConfig])
    ((publish_returned_iff c1wCfg c1wStream false c1wSess false false).mpr
      ⟨Or.inr rfl, by simp [c1wSess], Or.inr (by
        simp [new_speech_bytes, c1wSess, c1wCfg, defaultConfig])⟩)

/-! ## C7 — minimum-new-speech gating -/

/-- A publish that did not return leaves everything unchanged. -/
lemma publish_of_not_returned (cfg : Config) (stream : List Job) (fl : Bool)
    (s : SpeechSession) (f p : Bool)
    (hret : (publish_job_if_needed cfg stream fl s f p).returned = false) :
    publish_job_if_needed cfg stream fl s f p = ⟨stream, s, fl, false⟩ := by
  rcases publish_spec cfg stream fl s f p with h | h
  · rw [h] at hret
    simp at hret
  · exact h

/-- A publish that returned, on a non-empty buffer with the queue within
depth, appends exactly the one job carrying the full buffer. -/
lemma publish_stream_underdepth (cfg : Config) (stream : List Job) (fl : Bool)
    (s : SpeechSession) (f p : Bool)
    (hret : (publish_job_if_needed cfg stream fl s f p).returned = true)
    (hne : ¬s.audio_buffer.length = 0)
    (hdepth : ¬stream.length > cfg.MAX_QUEUE_DEPTH) :
    (publish_job_if_needed cfg stream fl s f p).stream =
      stream ++ [⟨s.audio_buffer, f, s.source_lang, s.target_lang,
                 s.translation_enabled⟩] := by
  rw [publish_of_returned cfg stream fl s f p hret]
  dsimp only
  unfold publish_audio_job
  rw [if_neg hne, if_neg hdepth]

/-- The new-speech window exactly as the claim words it: audio after the
silence marker when the marker is ahead of the published mark, otherwise the
unpublished tail. -/
def claim_new_speech_bytes (s : SpeechSession) : ℤ :=
  if s.silence_buffer_start_len > s.last_published_len then
    (s.audio_buffer.length : ℤ) - s.silence_buffer_start_len
  else (s.audio_buffer.length : ℤ) - s.last_published_len

/-- On states satisfying the session invariants (`last_published_len ≥ 0`,
marker within the buffer) the code's window agrees with the claim's. -/
lemma new_speech_bytes_eq_claim (s : SpeechSession)
    (h0 : 0 ≤ s.last_published_len)
    (hml : s.silence_buffer_start_len ≤ (s.audio_buffer.length : ℤ)) :
    new_speech_bytes s = claim_new_speech_bytes s := by
  unfold new_speech_bytes claim_new_speech_bytes
  rcases le_or_lt s.silence_buffer_start_len s.last_published_len with h | h
  · rw [if_neg (by omega), if_neg (by omega)]
  · rw [if_pos ⟨by omega, h⟩, if_pos h, max_eq_right (by omega)]

/-- Boundary sessions for C7: 31999 resp. 32000 bytes of unpublished audio,
no silence marker, default state of the remaining fields. -/
def c7Sess31999 : SpeechSession :=
  { state := .ACTIVE, audio_buffer := List.replicate 31999 0,
    silence_start_time := some 0 }

def c7Sess32000 : SpeechSession :=
  { state := .ACTIVE, audio_buffer := List.replicate 32000 0,
    silence_start_time := some 0 }

/-- C7: a non-final, non-forced publish requires the new speech in the
claim's window `[silence_buffer_start_len, len)` (when the marker is ahead of
`last_published_len`) or `[last_published_len, len)` (otherwise), converted
as `bytes / (SAMPLE_RATE × 2)`, to reach `MINIMUM_NEW_AUDIO_SECONDS`; at the
default configuration a 31999-byte buffer does not publish and a 32000-byte
buffer does. -/
theorem C7_min_new_speech :
    (∀ (cfg : Config) (stream : List Job) (fl : Bool) (s : SpeechSession),
      0 ≤ s.last_published_len →
      s.silence_buffer_start_len ≤ (s.audio_buffer.length : ℤ) →
      (publish_job_if_needed cfg stream fl s false false).returned = true →
      (claim_new_speech_bytes s : ℚ) / (cfg.SAMPLE_RATE * 2) ≥
        cfg.MINIMUM_NEW_AUDIO_SECONDS) ∧
    ((publish_job_if_needed defaultConfig [] false c7Sess31999 false false).returned
        = false ∧
      publish_job_if_needed defaultConfig [] false c7Sess31999 false false
        = ⟨[], c7Sess31999, false, false⟩) ∧
    ((publish_job_if_needed defaultConfig [] false c7Sess32000 false false).returned
        = true ∧
      (publish_job_if_needed defaultConfig [] false c7Sess32000 false false).stream
        = [⟨c7Sess32000.audio_buffer, false, "en", "vi", true⟩]) := by
  refine ⟨?_, ?_, ?_⟩
  · intro cfg stream fl s h0 hml hret
    have hcond := (publish_returned_iff cfg stream fl s false false).mp hret
    have hmeets : (new_speech_bytes s : ℚ) / (cfg.SAMPLE_RATE * 2) ≥
        cfg.MINIMUM_NEW_AUDIO_SECONDS := by
      rcases hcond.2.2 with h | h
      · exact absurd h (by simp)
      · exact h
    rwa [new_speech_bytes_eq_claim s h0 hml] at hmeets
  · have hret : (publish_job_if_needed defaultConfig [] false c7Sess31999
        false false).returned = false := by
      rw [Bool.eq_false_iff]
      intro hret
      have hcond := (publish_returned_iff defaultConfig [] false c7Sess31999
        false false).mp hret
      rcases hcond.2.2 with h | h
      · simp at h
      · rw [show new_speech_bytes c7Sess31999 = 31999 by
          simp [new_speech_bytes, c7Sess31999, -List.reduceReplicate]] at h
        norm_num [defaultConfig] at h
    exact ⟨hret, publish_of_not_returned _ _ _ _ _ _ hret⟩
  · have hret : (publish_job_if_needed defaultConfig [] false c7Sess32000
        false false).returned = true :=
      (publish_returned_iff defaultConfig [] false c7Sess32000 false false).mpr
        ⟨Or.inr rfl, by simp [c7Sess32000, -List.reduceReplicate], Or.inr (by
          rw [show new_speech_bytes c7Sess32000 = 32000 by
            simp [new_speech_bytes, c7Sess32000, -List.reduceReplicate]]
          norm_num [defaultConfig])⟩
    refine ⟨hret, ?_⟩
    rw [publish_stream_underdepth defaultConfig [] false c7Sess32000 false false
      hret (by simp [c7Sess32000, -List.reduceReplicate]) (by simp)]
    simp [c7Sess32000, -List.reduceReplicate]

/-- C7 (witness): the universally quantified part applied at a concrete
publish (minimum 0, one byte of new audio). -/
theorem C7_witness :
    0 ≤ c1wSess.last_published_len ∧
    c1wSess.silence_buffer_start_len ≤ (c1wSess.audio_buffer.length : ℤ) ∧
    (claim_new_speech_bytes c1wSess : ℚ) / (c1wCfg.SAMPLE_RATE * 2) ≥
      c1wCfg.MINIMUM_NEW_AUDIO_SECONDS :=
  ⟨by simp [c1wSess], by simp [c1wSess],
    C7_min_new_speech.1 c1wCfg [] false c1wSess (by simp [c1wSess])
      (by simp [c1wSess])
      ((publish_returned_iff c1wCfg [] false c1wSess false false).mpr
        ⟨Or.inr rfl, by simp [c1wSess], Or.inr (by
          simp [new_speech_bytes, c1wSess, c1wCfg, defaultConfig])⟩)⟩

/-! ## Phase lemmas for `process_audio_chunk` -/

lemma trimmed_pre_length_le (cfg : Config) (pre chunk : List Byte) :
    (trimmed_pre cfg pre chunk).length ≤ pre_speech_max_bytes cfg := by
  unfold trimmed_pre
  dsimp only
  split_ifs with h
  · simp only [List.length_drop]
    omega
  · omega

lemma trimmed_pre_is_drop (cfg : Config) (pre chunk : List Byte) :
    ∃ k, trimmed_pre cfg pre chunk = (pre ++ chunk).drop k := by
  unfold trimmed_pre
  dsimp only
  split_ifs with h
  · exact ⟨_, rfl⟩
  · exact ⟨0, (List.drop_zero _).symm⟩

lemma speech_phase_pre (now : ℚ) (hs : Bool) (s : SpeechSession) :
    (speech_phase now hs s).pre_speech_buffer = s.pre_speech_buffer := by
  obtain ⟨st, ab, pb, sst, sest, acc, lst, lpl, sbsl, sl, tl, te⟩ := s
  cases hs <;> cases st <;> rfl

lemma speech_phase_audio_of_not_inactive (now : ℚ) (hs : Bool)
    (s : SpeechSession) (h : s.state ≠ SpeechState.INACTIVE) :
    (speech_phase now hs s).audio_buffer = s.audio_buffer := by
  obtain ⟨st, ab, pb, sst, sest, acc, lst, lpl, sbsl, sl, tl, te⟩ := s
  cases hs <;> cases st <;> first | rfl | exact absurd rfl h

lemma silence_open_phase_pre (now : ℚ) (hs : Bool) (s : SpeechSession) :
    (silence_open_phase now hs s).pre_speech_buffer = s.pre_speech_buffer := by
  unfold silence_open_phase
  split_ifs <;> rfl

lemma silence_open_phase_audio (now : ℚ) (hs : Bool) (s : SpeechSession) :
    (silence_open_phase now hs s).audio_buffer = s.audio_buffer := by
  unfold silence_open_phase
  split_ifs <;> rfl

lemma publish_sess_pre (cfg : Config) (stream : List Job) (fl : Bool)
    (s : SpeechSession) (f p : Bool) :
    (publish_job_if_needed cfg stream fl s f p).sess.pre_speech_buffer
      = s.pre_speech_buffer := by
  rcases publish_spec cfg stream fl s f p with h | h <;> rw [h]

lemma nfpp_sess_pre (cfg : Config) (stream : List Job) (fl : Bool)
    (s : SpeechSession) :
    (non_final_publish_phase cfg stream fl s).sess.pre_speech_buffer
      = s.pre_speech_buffer := by
  unfold non_final_publish_phase
  dsimp only
  split_ifs with h
  · rfl
  · exact publish_sess_pre cfg stream fl s false false

/-- After any processed chunk the pre-speech buffer is the freshly trimmed
rolling buffer, or was cleared by a session reset. -/
lemma process_pre_cases (cfg : Config) (stream : List Job) (fl : Bool)
    (s0 : SpeechSession) (chunk : List Byte) (hs : Bool) (now : ℚ) :
    (process_audio_chunk cfg stream fl s0 chunk hs now).sess.pre_speech_buffer
        = trimmed_pre cfg s0.pre_speech_buffer chunk ∨
    (process_audio_chunk cfg stream fl s0 chunk hs now).sess.pre_speech_buffer
        = [] := by
  unfold process_audio_chunk
  dsimp only
  split
  · split
    · exact Or.inr rfl
    · split
      · split
        · exact Or.inr rfl
        · left
          rw [nfpp_sess_pre]
          dsimp only
          rw [silence_open_phase_pre, speech_phase_pre]
      · left
        rw [nfpp_sess_pre]
        dsimp only
        rw [silence_open_phase_pre, speech_phase_pre]
  · left
    dsimp only
    rw [silence_open_phase_pre, speech_phase_pre]

/-! ## C9 — pre-speech buffer cap -/

/-- C9: after every processed chunk — any state, any configuration, any
prior session contents — the pre-speech buffer holds at most
`pre_speech_max_bytes` (= `int(PRE_SPEECH_BUFFER_SECONDS × SAMPLE_RATE × 2)`,
64000 bytes at the defaults), and its contents are a suffix (`List.drop k`)
of the previous contents followed by the chunk: the oldest bytes are trimmed
first, as a rolling FIFO. -/
theorem C9_pre_speech_cap (cfg : Config) (stream : List Job) (fl : Bool)
    (s0 : SpeechSession) (chunk : List Byte) (hs : Bool) (now : ℚ) :
    (process_audio_chunk cfg stream fl s0 chunk hs now).sess.pre_speech_buffer.length
        ≤ pre_speech_max_bytes cfg ∧
      ∃ k, (process_audio_chunk cfg stream fl s0 chunk hs now).sess.pre_speech_buffer
        = (s0.pre_speech_buffer ++ chunk).drop k := by
  rcases process_pre_cases cfg stream fl s0 chunk hs now with h | h <;> rw [h]
  · exact ⟨trimmed_pre_length_le cfg s0.pre_speech_buffer chunk,
      trimmed_pre_is_drop cfg s0.pre_speech_buffer chunk⟩
  · exact ⟨Nat.zero_le _,
      ⟨(s0.pre_speech_buffer ++ chunk).length, (List.drop_length _).symm⟩⟩

lemma speech_phase_false (now : ℚ) (s : SpeechSession) :
    speech_phase now false s = s := rfl

lemma speech_phase_state_of_active (now : ℚ) (hs : Bool) (s : SpeechSession)
    (h : s.state = SpeechState.ACTIVE) :
    (speech_phase now hs s).state = SpeechState.ACTIVE := by
  obtain ⟨st, ab, pb, sst, sest, acc, lst, lpl, sbsl, sl, tl, te⟩ := s
  cases hs <;> cases st <;> first | rfl | exact h

lemma silence_open_phase_state (now : ℚ) (hs : Bool) (s : SpeechSession) :
    (silence_open_phase now hs s).state = s.state := by
  unfold silence_open_phase
  split_ifs <;> rfl

lemma silence_open_phase_of_some (now : ℚ) (hs : Bool) (s : SpeechSession)
    (t : ℚ) (h : s.silence_start_time = some t) :
    silence_open_phase now hs s = s := by
  unfold silence_open_phase
  rw [if_neg]
  rintro ⟨-, -, hnone⟩
  rw [h] at hnone
  cases hnone

lemma silence_open_phase_of_silent_none (now : ℚ) (s : SpeechSession)
    (hst : s.state = SpeechState.ACTIVE) (h : s.silence_start_time = none) :
    silence_open_phase now false s =
      { s with silence_start_time := some now,
               silence_buffer_start_len := (s.audio_buffer.length : ℤ) } := by
  unfold silence_open_phase
  rw [if_pos ⟨hst, rfl, h⟩]

lemma nfpp_of_in_silence (cfg : Config) (stream : List Job) (fl : Bool)
    (s : SpeechSession) (h1 : s.silence_start_time ≠ none)
    (h2 : s.silence_buffer_start_len > 0)
    (h3 : (s.audio_buffer.length : ℤ) > s.silence_buffer_start_len) :
    non_final_publish_phase cfg stream fl s = ⟨s, fl, stream, false⟩ := by
  unfold non_final_publish_phase
  dsimp only
  rw [if_pos ⟨h1, h2, h3⟩]

/-! ## C2 — silence gating

The claim reads the dead branch of gateway.py lines 274-280 as live. In the
program, activation (line 261), resume (line 267) and every speechful ACTIVE
chunk (line 271) all set `silence_start_time`, so in every reachable ACTIVE
state the timer is already running and the branch that would record
`silence_buffer_start_len` on the first silent chunk never fires; the marker
stays 0 (the one assignment to it, on resume from SILENCE, is immediately
zeroed again by `start_speech`), `in_silence_period` (lines 330-332) is
always false, and non-final jobs are published during open silence whenever
the ordinary eligibility check passes. -/

/-- With the silence marker at 0 the `in_silence_period` guard cannot hold:
the non-final phase always falls through to `publish_job_if_needed`. -/
lemma nfpp_of_marker_zero (cfg : Config) (stream : List Job) (fl : Bool)
    (s : SpeechSession) (hm : s.silence_buffer_start_len = 0) :
    non_final_publish_phase cfg stream fl s =
      ⟨(publish_job_if_needed cfg stream fl s false false).sess,
       (publish_job_if_needed cfg stream fl s false false).in_flight,
       (publish_job_if_needed cfg stream fl s false false).stream, false⟩ := by
  unfold non_final_publish_phase
  dsimp only
  rw [if_neg]
  rintro ⟨-, h2, -⟩
  omega

/-- A silent chunk processed in ACTIVE with the timer already running (as in
every reachable ACTIVE state), no overflow and no timeout reaches the
non-final publish phase on the accumulated session — the lines-274-280
branch does not fire. -/
lemma process_silent_active_step (cfg : Config) (stream : List Job)
    (fl : Bool) (s0 : SpeechSession) (chunk : List Byte) (now t : ℚ)
    (hst : s0.state = SpeechState.ACTIVE)
    (hsil : s0.silence_start_time = some t)
    (hov : s0.audio_buffer.length + chunk.length ≤ max_audio_buffer_bytes cfg)
    (htm : ¬ now - t ≥ cfg.SILENCE_THRESHOLD_SECONDS) :
    process_audio_chunk cfg stream fl s0 chunk false now =
      non_final_publish_phase cfg stream fl
        { s0 with
          pre_speech_buffer := trimmed_pre cfg s0.pre_speech_buffer chunk,
          audio_buffer := s0.audio_buffer ++ chunk,
          accumulated_audio_bytes :=
            s0.accumulated_audio_bytes + chunk.length } := by
  unfold process_audio_chunk
  dsimp only
  rw [speech_phase_false]
  have hsil1 :
      ({ s0 with
          pre_speech_buffer := trimmed_pre cfg s0.pre_speech_buffer chunk } :
        SpeechSession).silence_start_time = some t := hsil
  have hst1 :
      ({ s0 with
          pre_speech_buffer := trimmed_pre cfg s0.pre_speech_buffer chunk } :
        SpeechSession).state = SpeechState.ACTIVE := hst
  rw [silence_open_phase_of_some now false _ t hsil1]
  dsimp only
  rw [if_pos hst1]
  rw [if_neg (by
    simp only [List.length_append]
    omega)]
  rw [hsil]
  dsimp only
  rw [if_neg htm]

lemma max_audio_buffer_bytes_default :
    max_audio_buffer_bytes defaultConfig = 320000 := by
  simp only [max_audio_buffer_bytes, defaultConfig]
  norm_num
  rfl

/-- The speech and silence-transition phases preserve the reachable-state
invariant: an ACTIVE result always carries a running silence timer and a
zero silence marker. -/
lemma phases_inv (now : ℚ) (hs : Bool) (s1 : SpeechSession)
    (hinv : s1.state = SpeechState.ACTIVE →
      s1.silence_start_time ≠ none ∧ s1.silence_buffer_start_len = 0) :
    (silence_open_phase now hs (speech_phase now hs s1)).state
        = SpeechState.ACTIVE →
      (silence_open_phase now hs (speech_phase now hs s1)).silence_start_time
          ≠ none ∧
        (silence_open_phase now hs
            (speech_phase now hs s1)).silence_buffer_start_len = 0 := by
  obtain ⟨st, ab, pb, sst, sest, acc, lst, lpl, sbsl, sl, tl, te⟩ := s1
  intro hact
  cases hs with
  | false =>
      cases st with
      | INACTIVE =>
          rw [speech_phase_false, silence_open_phase_state] at hact
          simp at hact
      | SILENCE =>
          rw [speech_phase_false, silence_open_phase_state] at hact
          simp at hact
      | ACTIVE =>
          cases sst with
          | none =>
              obtain ⟨h1, h2⟩ := hinv rfl
              exact absurd rfl h1
          | some t0 =>
              obtain ⟨h1, h2⟩ := hinv rfl
              rw [speech_phase_false,
                silence_open_phase_of_some now false _ t0 rfl]
              exact ⟨h1, h2⟩
  | true =>
      cases st with
      | INACTIVE => exact ⟨fun h => Option.noConfusion h, rfl⟩
      | SILENCE => exact ⟨fun h => Option.noConfusion h, rfl⟩
      | ACTIVE =>
          obtain ⟨h1, h2⟩ := hinv rfl
          exact ⟨fun h => Option.noConfusion h, h2⟩

/-- The session after the pre-speech trim and the speech/silence phases. -/
def sess_after_phases (cfg : Config) (s0 : SpeechSession) (chunk : List Byte)
    (hs : Bool) (now : ℚ) : SpeechSession :=
  silence_open_phase now hs (speech_phase now hs
    { s0 with pre_speech_buffer := trimmed_pre cfg s0.pre_speech_buffer chunk })

/-- The session after additionally accumulating the chunk (lines 282-288). -/
def sess_accum (cfg : Config) (s0 : SpeechSession) (chunk : List Byte)
    (hs : Bool) (now : ℚ) : SpeechSession :=
  { sess_after_phases cfg s0 chunk hs now with
    audio_buffer := (sess_after_phases cfg s0 chunk hs now).audio_buffer ++ chunk,
    accumulated_audio_bytes :=
      (sess_after_phases cfg s0 chunk hs now).accumulated_audio_bytes
        + chunk.length }

/-- Every path of `process_audio_chunk` ends in one of: a reset (INACTIVE)
session, the phase session unchanged (non-ACTIVE), the accumulated session,
or the accumulated session with the publish markers advanced. -/
lemma process_sess_shape (cfg : Config) (stream : List Job) (fl : Bool)
    (s0 : SpeechSession) (chunk : List Byte) (hs : Bool) (now : ℚ) :
    (process_audio_chunk cfg stream fl s0 chunk hs now).sess.state
        = SpeechState.INACTIVE ∨
    ((process_audio_chunk cfg stream fl s0 chunk hs now).sess
          = sess_after_phases cfg s0 chunk hs now ∧
        (sess_after_phases cfg s0 chunk hs now).state ≠ SpeechState.ACTIVE) ∨
    (process_audio_chunk cfg stream fl s0 chunk hs now).sess
        = sess_accum cfg s0 chunk hs now ∨
    (process_audio_chunk cfg stream fl s0 chunk hs now).sess
        = { sess_accum cfg s0 chunk hs now with
            last_published_len :=
              ((sess_accum cfg s0 chunk hs now).audio_buffer.length : ℤ),
            silence_buffer_start_len := 0 } := by
  unfold process_audio_chunk sess_accum sess_after_phases
  dsimp only
  split
  · split
    · left
      rfl
    · split
      · split
        · left
          rfl
        · unfold non_final_publish_phase
          dsimp only
          split
          · right; right; left
            rfl
          · rcases publish_spec cfg stream fl _ false false with hp | hp
            · right; right; right
              rw [hp]
            · right; right; left
              rw [hp]
      · unfold non_final_publish_phase
        dsimp only
        split
        · right; right; left
          rfl
        · rcases publish_spec cfg stream fl _ false false with hp | hp
          · right; right; right
            rw [hp]
          · right; right; left
            rw [hp]
  · right; left
    exact ⟨rfl, by assumption⟩

/-- The full silent-chunk step: ACTIVE, timer running, marker zero, no
overflow, no timeout, eligible publish — the chunk ends in an ordinary
non-final publish of the whole accumulated buffer, with the marker left (or
reset to) zero and the timer untouched. -/
lemma process_silent_publish (cfg : Config) (stream : List Job) (fl : Bool)
    (s0 : SpeechSession) (chunk : List Byte) (now t : ℚ)
    (hst : s0.state = SpeechState.ACTIVE)
    (hsil : s0.silence_start_time = some t)
    (hmk : s0.silence_buffer_start_len = 0)
    (hov : s0.audio_buffer.length + chunk.length ≤ max_audio_buffer_bytes cfg)
    (htm : ¬ now - t ≥ cfg.SILENCE_THRESHOLD_SECONDS)
    (hret : (publish_job_if_needed cfg stream fl
        { s0 with
          pre_speech_buffer := trimmed_pre cfg s0.pre_speech_buffer chunk,
          audio_buffer := s0.audio_buffer ++ chunk,
          accumulated_audio_bytes := s0.accumulated_audio_bytes + chunk.length }
        false false).returned = true)
    (hne : ¬ (s0.audio_buffer ++ chunk).length = 0)
    (hdepth : ¬ stream.length > cfg.MAX_QUEUE_DEPTH) :
    (process_audio_chunk cfg stream fl s0 chunk false
        now).sess.silence_buffer_start_len = 0 ∧
    (process_audio_chunk cfg stream fl s0 chunk false
        now).sess.silence_start_time = s0.silence_start_time ∧
    (process_audio_chunk cfg stream fl s0 chunk false now).stream
      = stream ++ [⟨s0.audio_buffer ++ chunk, false, s0.source_lang,
                   s0.target_lang, s0.translation_enabled⟩] := by
  rw [process_silent_active_step cfg stream fl s0 chunk now t hst hsil hov htm,
    nfpp_of_marker_zero cfg stream fl
      { s0 with
        pre_speech_buffer := trimmed_pre cfg s0.pre_speech_buffer chunk,
        audio_buffer := s0.audio_buffer ++ chunk,
        accumulated_audio_bytes := s0.accumulated_audio_bytes + chunk.length }
      hmk]
  dsimp only
  rw [publish_of_returned _ _ _ _ _ _ hret]
  refine ⟨rfl, rfl, ?_⟩
  dsimp only
  unfold publish_audio_job
  rw [if_neg hne, if_neg hdepth]

/-- Counterexample inputs for C2, at the default configuration: a reachable
ACTIVE state after 0.9 s of speech (timer running since the last speechful
chunk at time 0, marker 0, nothing published) and a 0.3 s silent chunk
arriving at 0.3 s. -/
def c2xSess : SpeechSession :=
  { state := .ACTIVE, audio_buffer := List.replicate 28800 0,
    silence_start_time := some 0 }

def c2xChunk : List Byte := List.replicate 9600 0

/-- C2 (counterexample): at `c2xSess` the first silent chunk does NOT record
the marker (`silence_buffer_start_len` stays 0 instead of 28800) and does NOT
start the silence timer (`silence_start_time` keeps its old value `some 0`
instead of the chunk time `some (3/10)`) — the lines-274-280 branch is dead
because every reachable ACTIVE state already has the timer running — and a
NON-final job carrying the whole buffer is published during the freshly
opened silence period (1.2 s ≥ 1 s of unpublished audio passes the
eligibility check, which never consults the dead marker). -/
theorem C2_counterexample :
    c2xSess.state = SpeechState.ACTIVE ∧
    c2xSess.silence_start_time = some 0 ∧
    c2xSess.silence_buffer_start_len = 0 ∧
    c2xSess.audio_buffer ++ c2xChunk
      = List.replicate 28800 0 ++ List.replicate 9600 0 ∧
    (process_audio_chunk defaultConfig [] false c2xSess c2xChunk false
        (3/10)).sess.silence_buffer_start_len = 0 ∧
    (process_audio_chunk defaultConfig [] false c2xSess c2xChunk false
        (3/10)).sess.silence_start_time = c2xSess.silence_start_time ∧
    (process_audio_chunk defaultConfig [] false c2xSess c2xChunk false
        (3/10)).stream
      = [⟨c2xSess.audio_buffer ++ c2xChunk, false, c2xSess.source_lang,
          c2xSess.target_lang, c2xSess.translation_enabled⟩] := by
  have hov : c2xSess.audio_buffer.length + c2xChunk.length
      ≤ max_audio_buffer_bytes defaultConfig := by
    rw [show c2xSess.audio_buffer = List.replicate 28800 0 from rfl,
      show c2xChunk = List.replicate 9600 0 from rfl,
      List.length_replicate, List.length_replicate,
      max_audio_buffer_bytes_default]
    norm_num
  have htm : ¬ ((3/10 : ℚ) - 0 ≥ defaultConfig.SILENCE_THRESHOLD_SECONDS) := by
    norm_num [defaultConfig]
  have hlen : ({ c2xSess with
      pre_speech_buffer := trimmed_pre defaultConfig c2xSess.pre_speech_buffer
        c2xChunk,
      audio_buffer := c2xSess.audio_buffer ++ c2xChunk,
      accumulated_audio_bytes := c2xSess.accumulated_audio_bytes
        + c2xChunk.length } : SpeechSession).audio_buffer.length = 38400 := by
    rw [show ({ c2xSess with
        pre_speech_buffer := trimmed_pre defaultConfig c2xSess.pre_speech_buffer
          c2xChunk,
        audio_buffer := c2xSess.audio_buffer ++ c2xChunk,
        accumulated_audio_bytes := c2xSess.accumulated_audio_bytes
          + c2xChunk.length } : SpeechSession).audio_buffer
        = List.replicate 28800 0 ++ List.replicate 9600 0 from rfl,
      List.length_append, List.length_replicate, List.length_replicate]
  have hret : (publish_job_if_needed defaultConfig [] false
      { c2xSess with
        pre_speech_buffer := trimmed_pre defaultConfig c2xSess.pre_speech_buffer
          c2xChunk,
        audio_buffer := c2xSess.audio_buffer ++ c2xChunk,
        accumulated_audio_bytes := c2xSess.accumulated_audio_bytes
          + c2xChunk.length } false false).returned = true := by
    refine (publish_returned_iff _ _ _ _ _ _).mpr ⟨Or.inr rfl, ?_, Or.inr ?_⟩
    · rw [hlen]
      show ((38400 : ℕ) : ℤ) > (0 : ℤ)
      norm_num
    · have hnsb : new_speech_bytes
          { c2xSess with
            pre_speech_buffer := trimmed_pre defaultConfig
              c2xSess.pre_speech_buffer c2xChunk,
            audio_buffer := c2xSess.audio_buffer ++ c2xChunk,
            accumulated_audio_bytes := c2xSess.accumulated_audio_bytes
              + c2xChunk.length } = 38400 := by
        unfold new_speech_bytes
        rw [if_neg (by
          rintro ⟨hgt, -⟩
          exact absurd hgt (by decide))]
        rw [hlen]
        show ((38400 : ℕ) : ℤ) - (0 : ℤ) = 38400
        norm_num
      rw [hnsb]
      norm_num [defaultConfig]
  have hne : ¬ (c2xSess.audio_buffer ++ c2xChunk).length = 0 := by
    rw [show c2xSess.audio_buffer ++ c2xChunk
        = List.replicate 28800 0 ++ List.replicate 9600 0 from rfl,
      List.length_append, List.length_replicate, List.length_replicate]
    norm_num
  have hdepth : ¬ ([] : List Job).length > defaultConfig.MAX_QUEUE_DEPTH := by
    simp [defaultConfig]
  have hmain := process_silent_publish defaultConfig [] false c2xSess c2xChunk
    (3/10) 0 rfl rfl rfl hov htm hret hne hdepth
  exact ⟨rfl, rfl, rfl, rfl, hmain.1, hmain.2.1, hmain.2.2⟩

/-- C2 (amended): the reachable-state invariant of the silence machinery and
its consequence. (1) Whenever a processed chunk leaves the session ACTIVE,
its silence timer is running and its silence marker is 0 — so the
marker-recording branch for the "first silent chunk" (lines 274-280) can
never fire on any subsequent chunk, and the invariant is maintained from any
state satisfying it. (2) With the marker at 0, `in_silence_period` is false
and the non-final phase always falls through to the ordinary
`publish_job_if_needed` eligibility check: an open silence period does not
block non-final publishes. -/
theorem C2_amended (cfg : Config) (stream : List Job) (fl : Bool)
    (s0 : SpeechSession) (chunk : List Byte) (hs : Bool) (now : ℚ)
    (hinv : s0.state = SpeechState.ACTIVE →
      s0.silence_start_time ≠ none ∧ s0.silence_buffer_start_len = 0) :
    ((process_audio_chunk cfg stream fl s0 chunk hs now).sess.state
        = SpeechState.ACTIVE →
      (process_audio_chunk cfg stream fl s0 chunk hs now).sess.silence_start_time
          ≠ none ∧
        (process_audio_chunk cfg stream fl s0 chunk hs
            now).sess.silence_buffer_start_len = 0) ∧
    (∀ s : SpeechSession, s.silence_buffer_start_len = 0 →
      non_final_publish_phase cfg stream fl s =
        ⟨(publish_job_if_needed cfg stream fl s false false).sess,
         (publish_job_if_needed cfg stream fl s false false).in_flight,
         (publish_job_if_needed cfg stream fl s false false).stream, false⟩) := by
  constructor
  · intro hact
    rcases process_sess_shape cfg stream fl s0 chunk hs now with
      hin | ⟨heq, hne⟩ | heq | heq
    · rw [hin] at hact
      exact absurd hact (by decide)
    · rw [heq] at hact
      exact absurd hact hne
    · rw [heq] at hact ⊢
      exact phases_inv now hs
        { s0 with pre_speech_buffer := trimmed_pre cfg s0.pre_speech_buffer chunk }
        hinv hact
    · rw [heq] at hact ⊢
      have h3 := phases_inv now hs
        { s0 with pre_speech_buffer := trimmed_pre cfg s0.pre_speech_buffer chunk }
        hinv hact
      exact ⟨h3.1, rfl⟩
  · intro s hm
    exact nfpp_of_marker_zero cfg stream fl s hm

/-- Witness inputs for C2: one byte of audio, the timer running, marker 0. -/
def c2wSess : SpeechSession :=
  { state := .ACTIVE, audio_buffer := [7], silence_start_time := some 0 }

/-- C2 (witness): the amended invariant applied at a concrete silent chunk. -/
theorem C2_witness :
    (((process_audio_chunk defaultConfig [] false c2wSess [8] false 1).sess.state
        = SpeechState.ACTIVE →
      (process_audio_chunk defaultConfig [] false c2wSess [8] false
          1).sess.silence_start_time ≠ none ∧
        (process_audio_chunk defaultConfig [] false c2wSess [8] false
            1).sess.silence_buffer_start_len = 0) ∧
    (∀ s : SpeechSession, s.silence_buffer_start_len = 0 →
      non_final_publish_phase defaultConfig [] false s =
        ⟨(publish_job_if_needed defaultConfig [] false s false false).sess,
         (publish_job_if_needed defaultConfig [] false s false false).in_flight,
         (publish_job_if_needed defaultConfig [] false s false false).stream,
         false⟩)) :=
  C2_amended defaultConfig [] false c2wSess [8] false 1
    (fun _ => ⟨fun h => Option.noConfusion h, rfl⟩)

/-! ## C6 — forced final publishes and the in-flight flag -/

/-- A final (`is_final=True`) publish leaves the in-flight flag exactly as it
was passed in. -/
lemma publish_final_in_flight (cfg : Config) (stream : List Job) (fl : Bool)
    (s : SpeechSession) (p : Bool) :
    (publish_job_if_needed cfg stream fl s true p).in_flight = fl := by
  rcases publish_spec cfg stream fl s true p with h | h
  · rw [h]
    rfl
  · rw [h]

/-- The max-buffer overflow path: the step returns `True`, resets the
session, and leaves the in-flight flag unchanged — it is not cleared. -/
lemma process_overflow_flags (cfg : Config) (stream : List Job) (fl : Bool)
    (s0 : SpeechSession) (chunk : List Byte) (hs : Bool) (now : ℚ)
    (hst : s0.state = SpeechState.ACTIVE)
    (hov : s0.audio_buffer.length + chunk.length > max_audio_buffer_bytes cfg) :
    (process_audio_chunk cfg stream fl s0 chunk hs now).in_flight = fl ∧
    (process_audio_chunk cfg stream fl s0 chunk hs now).returned = true ∧
    (process_audio_chunk cfg stream fl s0 chunk hs now).sess.state
      = SpeechState.INACTIVE := by
  have hnin : s0.state ≠ SpeechState.INACTIVE := by
    rw [hst]
    exact fun h => nomatch h
  unfold process_audio_chunk
  dsimp only
  rw [silence_open_phase_state, speech_phase_state_of_active now hs
    { s0 with pre_speech_buffer := trimmed_pre cfg s0.pre_speech_buffer chunk }
    hst]
  rw [if_pos rfl]
  rw [silence_open_phase_audio, speech_phase_audio_of_not_inactive now hs
    { s0 with pre_speech_buffer := trimmed_pre cfg s0.pre_speech_buffer chunk }
    hnin]
  rw [if_pos (by
    dsimp only
    simp only [List.length_append]
    omega)]
  split_ifs with hsend
  · exact ⟨publish_final_in_flight cfg stream fl _ true, rfl, rfl⟩
  · exact ⟨rfl, rfl, rfl⟩

/-- With speech detected in an ACTIVE session, the two state phases only
reset the silence timer. -/
lemma speech_phase_of_active_true (now : ℚ) (s : SpeechSession)
    (h : s.state = SpeechState.ACTIVE) :
    speech_phase now true s = { s with silence_start_time := some now } := by
  obtain ⟨st, ab, pb, sst, sest, acc, lst, lpl, sbsl, sl, tl, te⟩ := s
  dsimp only at h
  subst h
  rfl

lemma silence_open_phase_of_speech (now : ℚ) (s : SpeechSession) :
    silence_open_phase now true s = s := by
  unfold silence_open_phase
  rw [if_neg]
  rintro ⟨-, hfalse, -⟩
  cases hfalse

/-- The max-buffer overflow path with the final-job policy enabled, new
audio available and the queue within depth: exactly the forced final job,
carrying the whole accumulated buffer, is appended. -/
lemma process_overflow_stream (cfg : Config) (stream : List Job) (fl : Bool)
    (s0 : SpeechSession) (chunk : List Byte) (hs : Bool) (now : ℚ)
    (hst : s0.state = SpeechState.ACTIVE)
    (hov : s0.audio_buffer.length + chunk.length > max_audio_buffer_bytes cfg)
    (hsend : cfg.SEND_FINAL_JOB_ON_MAX_BUFFER = true)
    (h0 : 0 ≤ s0.last_published_len)
    (hnew : s0.last_published_len < (s0.audio_buffer.length : ℤ) + chunk.length)
    (hdepth : ¬stream.length > cfg.MAX_QUEUE_DEPTH) :
    (process_audio_chunk cfg stream fl s0 chunk hs now).stream =
      stream ++ [⟨s0.audio_buffer ++ chunk, true, s0.source_lang,
                 s0.target_lang, s0.translation_enabled⟩] := by
  have hov' : ∀ ab : List Byte, ab = s0.audio_buffer →
      (ab ++ chunk).length > max_audio_buffer_bytes cfg := by
    intro ab hab
    subst hab
    simp only [List.length_append]
    omega
  have hfin : ∀ s4 : SpeechSession, s4.audio_buffer = s0.audio_buffer ++ chunk →
      s4.last_published_len = s0.last_published_len →
      s4.source_lang = s0.source_lang → s4.target_lang = s0.target_lang →
      s4.translation_enabled = s0.translation_enabled →
      (publish_job_if_needed cfg stream fl s4 true true).stream =
        stream ++ [⟨s0.audio_buffer ++ chunk, true, s0.source_lang,
                   s0.target_lang, s0.translation_enabled⟩] := by
    intro s4 hab hlp hsl htl hte
    have hret : (publish_job_if_needed cfg stream fl s4 true true).returned
        = true :=
      (publish_returned_iff cfg stream fl s4 true true).mpr
        ⟨Or.inl rfl, by
          rw [hab, hlp, List.length_append]
          push_cast
          omega, Or.inl rfl⟩
    rw [publish_stream_underdepth cfg stream fl s4 true true hret
      (by
        rw [hab, List.length_append]
        omega) hdepth]
    rw [hab, hsl, htl, hte]
  unfold process_audio_chunk
  dsimp only
  cases hs
  · rw [speech_phase_false]
    rcases hsc : s0.silence_start_time with _ | t
    · rw [silence_open_phase_of_silent_none now
        { s0 with
          pre_speech_buffer := trimmed_pre cfg s0.pre_speech_buffer chunk,
          silence_start_time := none } hst rfl]
      dsimp only
      rw [if_pos hst, if_pos (hov' _ rfl)]
      rw [if_pos hsend]
      dsimp only
      exact hfin _ rfl rfl rfl rfl rfl
    · rw [silence_open_phase_of_some now false
        { s0 with
          pre_speech_buffer := trimmed_pre cfg s0.pre_speech_buffer chunk,
          silence_start_time := some t } t rfl]
      dsimp only
      rw [if_pos hst, if_pos (hov' _ rfl)]
      rw [if_pos hsend]
      dsimp only
      exact hfin _ rfl rfl rfl rfl rfl
  · rw [speech_phase_of_active_true now
      { s0 with pre_speech_buffer := trimmed_pre cfg s0.pre_speech_buffer chunk }
      hst]
    rw [silence_open_phase_of_speech]
    dsimp only
    rw [if_pos hst, if_pos (hov' _ rfl)]
    rw [if_pos hsend]
    dsimp only
    exact hfin _ rfl rfl rfl rfl rfl


/-- The silence-timeout path on a silent chunk: the in-flight flag is set to
`False` before the forced final publish, the step returns `True`, and only
final jobs can be appended. -/
lemma process_timeout_flags (cfg : Config) (stream : List Job) (fl : Bool)
    (s0 : SpeechSession) (chunk : List Byte) (now t : ℚ)
    (hst : s0.state = SpeechState.ACTIVE)
    (hsil : s0.silence_start_time = some t)
    (hov : ¬s0.audio_buffer.length + chunk.length > max_audio_buffer_bytes cfg)
    (htm : now - t ≥ cfg.SILENCE_THRESHOLD_SECONDS) :
    (process_audio_chunk cfg stream fl s0 chunk false now).in_flight = false ∧
    (process_audio_chunk cfg stream fl s0 chunk false now).returned = true ∧
    ∀ j ∈ (process_audio_chunk cfg stream fl s0 chunk false now).stream.drop
        stream.length, j.is_final = true := by
  unfold process_audio_chunk
  dsimp only
  rw [speech_phase_false]
  have hsil1 :
      ({ s0 with
          pre_speech_buffer := trimmed_pre cfg s0.pre_speech_buffer chunk } :
        SpeechSession).silence_start_time = some t := hsil
  rw [silence_open_phase_of_some now false _ t hsil1]
  rw [if_pos hst]
  rw [if_neg (by
    dsimp only
    simp only [List.length_append]
    omega)]
  rw [hsil]
  dsimp only
  rw [if_pos htm]
  exact ⟨publish_final_in_flight cfg stream false _ true, rfl,
    publish_appended_final cfg stream false _ true true⟩

/-- Concrete counterexample state for C6: default configuration, exactly the
maximum buffer (320000 bytes) already accumulated, a job in flight. -/
def c6xSess : SpeechSession :=
  { state := .ACTIVE, audio_buffer := List.replicate 320000 0,
    silence_start_time := some 0 }

/-- C6 (counterexample): at `c6xSess` with `in_flight = true`, the next chunk
overflows the buffer and a forced final job is published — yet `in_flight`
remains `true` afterwards: the overflow path never clears it, contrary to
the claim that every forced final publish clears the flag first. -/
theorem C6_counterexample :
    (process_audio_chunk defaultConfig [] true c6xSess [0] true 0).in_flight
      = true ∧
    (process_audio_chunk defaultConfig [] true c6xSess [0] true 0).stream
      = [⟨c6xSess.audio_buffer ++ [0], true, "en", "vi", true⟩] ∧
    (process_audio_chunk defaultConfig [] true c6xSess [0] true 0).returned
      = true := by
  have hlen : c6xSess.audio_buffer.length = 320000 := by
    rw [show c6xSess.audio_buffer = List.replicate 320000 0 from rfl,
      List.length_replicate]
  have hlp : c6xSess.last_published_len = 0 := rfl
  have hov : c6xSess.audio_buffer.length + ([0] : List Byte).length >
      max_audio_buffer_bytes defaultConfig := by
    rw [max_audio_buffer_bytes_default, hlen]
    norm_num
  refine ⟨(process_overflow_flags defaultConfig [] true c6xSess [0] true 0
      rfl hov).1, ?_,
    (process_overflow_flags defaultConfig [] true c6xSess [0] true 0
      rfl hov).2.1⟩
  rw [process_overflow_stream defaultConfig [] true c6xSess [0] true 0 rfl hov
    rfl (by rw [hlp]) (by rw [hlp, hlen]; norm_num) (by simp)]
  rfl

/-- C6 (amended): only the silence-timeout forced final publish clears
`in_flight` before publishing (and it stays cleared); the max-buffer
overflow forced publish leaves `in_flight` exactly as it was — a job still
in flight is not cleared there. -/
theorem C6_amended :
    (∀ (cfg : Config) (stream : List Job) (fl : Bool) (s0 : SpeechSession)
        (chunk : List Byte) (now t : ℚ),
      s0.state = SpeechState.ACTIVE →
      s0.silence_start_time = some t →
      ¬s0.audio_buffer.length + chunk.length > max_audio_buffer_bytes cfg →
      now - t ≥ cfg.SILENCE_THRESHOLD_SECONDS →
      (process_audio_chunk cfg stream fl s0 chunk false now).in_flight = false ∧
        (process_audio_chunk cfg stream fl s0 chunk false now).returned = true) ∧
    (∀ (cfg : Config) (stream : List Job) (fl : Bool) (s0 : SpeechSession)
        (chunk : List Byte) (hs : Bool) (now : ℚ),
      s0.state = SpeechState.ACTIVE →
      s0.audio_buffer.length + chunk.length > max_audio_buffer_bytes cfg →
      (process_audio_chunk cfg stream fl s0 chunk hs now).in_flight = fl ∧
        (process_audio_chunk cfg stream fl s0 chunk hs now).returned = true) :=
  ⟨fun cfg stream fl s0 chunk now t hst hsil hov htm =>
    ⟨(process_timeout_flags cfg stream fl s0 chunk now t hst hsil hov htm).1,
     (process_timeout_flags cfg stream fl s0 chunk now t hst hsil hov htm).2.1⟩,
   fun cfg stream fl s0 chunk hs now hst hov =>
    ⟨(process_overflow_flags cfg stream fl s0 chunk hs now hst hov).1,
     (process_overflow_flags cfg stream fl s0 chunk hs now hst hov).2.1⟩⟩

/-- Witness configuration for the overflow part of C6: a zero-length buffer
cap, so two bytes already overflow. -/
def c6wCfg : Config := { defaultConfig with MAX_AUDIO_BUFFER_SECONDS := 0 }

def c6wSess : SpeechSession :=
  { state := .ACTIVE, audio_buffer := [7], silence_start_time := some 0 }

/-- C6 (witness): both parts of the amended theorem at concrete inputs. -/
theorem C6_witness :
    ((process_audio_chunk defaultConfig [] true c6wSess [8] false 2).in_flight
        = false ∧
      (process_audio_chunk defaultConfig [] true c6wSess [8] false 2).returned
        = true) ∧
    ((process_audio_chunk c6wCfg [] true c6wSess [8] false 0).in_flight
        = true ∧
      (process_audio_chunk c6wCfg [] true c6wSess [8] false 0).returned
        = true) :=
  ⟨C6_amended.1 defaultConfig [] true c6wSess [8] 2 0 rfl rfl
      (by rw [max_audio_buffer_bytes_default]; simp [c6wSess])
      (by norm_num [defaultConfig]),
    C6_amended.2 c6wCfg [] true c6wSess [8] false 0 rfl
      (by
        have : max_audio_buffer_bytes c6wCfg = 0 := by
          simp only [max_audio_buffer_bytes, c6wCfg, defaultConfig]
          norm_num
        rw [this]
        simp [c6wSess])⟩

/-! ## C3 — dual-VAD combination -/

/-- Oracles and state for the C3 counterexample: every frame is WebRTC
speech, Silero rejects every chunk, and the stored Silero flag is stale
`true` from an earlier chunk. -/
def c3wf : List Byte → Bool := fun _ => true

def c3sv : List Byte → Bool := fun _ => false

def c3xState : VadState :=
  { is_webrtc_speech_active := false, is_silero_speech_active := true,
    silero_working := false }

def c3xChunk : List Byte := List.replicate 320 0

set_option maxRecDepth 4000 in
/-- C3 (counterexample): on a 320-byte chunk whose WebRTC verdict is TRUE
and whose Silero verdict is FALSE, with a stale `is_silero_speech_active =
true` from a prior chunk and the spawned inference not finished before the
read, `detect_speech_activity` returns TRUE — but the AND of the two
detectors' verdicts on the current chunk is FALSE. The claim that the
combined verdict never incorporates a stale precise verdict is false. -/
theorem C3_counterexample :
    (detect_speech_activity c3wf c3sv c3xState c3xChunk false).1 = true ∧
    (webrtc_chunk_verdict c3wf c3xChunk && c3sv c3xChunk) = false := by
  constructor <;> decide

/-- C3 (amended): the combined verdict is the AND of the current chunk's
WebRTC verdict with the Silero flag visible at the read: when the spawned
Silero inference finishes before the read (and the detector was not already
busy), that is the current chunk's Silero verdict — the claimed AND; when it
has not finished, the stale flag from a prior chunk is used. The caller
never waits. -/
theorem C3_amended (wf sv : List Byte → Bool) (st : VadState)
    (chunk : List Byte) (hne : chunk.length ≠ 0) :
    (st.silero_working = false →
      (detect_speech_activity wf sv st chunk true).1
        = (webrtc_chunk_verdict wf chunk && sv chunk)) ∧
    (detect_speech_activity wf sv st chunk false).1
      = (webrtc_chunk_verdict wf chunk && st.is_silero_speech_active) := by
  constructor
  · intro hw
    unfold detect_speech_activity
    rw [if_neg hne]
    dsimp only
    rw [hw]
    by_cases hwv : webrtc_chunk_verdict wf chunk = true
    · simp [hwv]
    · simp only [Bool.not_eq_true] at hwv
      simp [hwv]
  · unfold detect_speech_activity
    rw [if_neg hne]
    dsimp only
    by_cases hwv : webrtc_chunk_verdict wf chunk = true
    · rcases Bool.dichotomy st.silero_working with hsw | hsw <;>
        simp [hwv, hsw]
    · simp only [Bool.not_eq_true] at hwv
      simp [hwv]

set_option maxRecDepth 4000 in
/-- C3 (witness): the amended theorem at the counterexample's inputs. -/
theorem C3_witness :
    ((detect_speech_activity c3wf c3sv c3xState c3xChunk true).1
      = (webrtc_chunk_verdict c3wf c3xChunk && c3sv c3xChunk)) ∧
    ((detect_speech_activity c3wf c3sv c3xState c3xChunk false).1
      = (webrtc_chunk_verdict c3wf c3xChunk && c3xState.is_silero_speech_active)) :=
  ⟨(C3_amended c3wf c3sv c3xState c3xChunk (by decide)).1 rfl,
   (C3_amended c3wf c3sv c3xState c3xChunk (by decide)).2⟩

/-! ## C4 — out-of-order results -/

/-- The claim's unlock predicate: translation disabled and any result, or a
result carrying a non-empty (after strip) translation. -/
def unlock_predicate (st : RouterState) (r : ResultMsg) : Prop :=
  st.sess.translation_enabled = false ∨ stripped_nonempty r.translation = true

/-- The router's forward gate: a fresh segment id, and — with translation
enabled — a translation-carrying result. -/
def forward_gate (st : RouterState) (r : ResultMsg) : Prop :=
  if st.sess.translation_enabled = true then
    r.segment_id > st.latest_segment_id_sent ∧
      stripped_nonempty r.translation = true
  else r.segment_id > st.latest_segment_id_sent

/-- Stale-segment inputs for the C4 counterexample: translation disabled
(unlock predicate applies to any result), a job in flight, and a result with
`segment_id 3 ≤ latest_segment_id_sent 5`. -/
def c4xSt : RouterState :=
  { sess := { source_lang := "en", target_lang := "en",
              translation_enabled := false },
    latest_segment_id_sent := 5, job_in_flight := true,
    websocket_present := true, stream := [] }

def c4xMsg : ResultMsg :=
  { client_id_present := true, segment_id := 3, text := "hello",
    translation := "", is_final := false }

/-- C4 (counterexample): at `c4xSt`/`c4xMsg` the unlock predicate of the
claim applies (translation disabled), yet the router drops the stale result
entirely: nothing is forwarded AND `in_flight` is left set — the unlock
bookkeeping does not run. -/
theorem C4_counterexample :
    c4xSt.sess.translation_enabled = false ∧
    c4xMsg.segment_id ≤ c4xSt.latest_segment_id_sent ∧
    c4xSt.job_in_flight = true ∧
    (forward_result_to_client defaultConfig c4xSt c4xMsg).st.job_in_flight
      = true ∧
    (forward_result_to_client defaultConfig c4xSt c4xMsg).sent_realtime
      = false := by
  refine ⟨rfl, by decide, rfl, ?_, ?_⟩ <;> decide

/-- C4 (amended): a result whose `segment_id` does not exceed
`latest_segment_id_sent` is dropped entirely: nothing is sent to the client,
no job is published, and no bookkeeping runs — the router state (including
`in_flight`) is returned unchanged, whether or not the unlock predicate
applies. -/
theorem C4_amended (cfg : Config) (st : RouterState) (r : ResultMsg)
    (hstale : r.segment_id ≤ st.latest_segment_id_sent) :
    forward_result_to_client cfg st r = ⟨st, false, false⟩ := by
  have hns : ¬ (if st.sess.translation_enabled = true then
      r.segment_id > st.latest_segment_id_sent ∧
        stripped_nonempty r.translation = true
    else r.segment_id > st.latest_segment_id_sent) := by
    by_cases hte : st.sess.translation_enabled = true
    · rw [if_pos hte]
      rintro ⟨h1, -⟩
      omega
    · rw [if_neg hte]
      omega
  unfold forward_result_to_client
  dsimp only
  by_cases hcid : r.client_id_present = false
  · rw [if_pos hcid]
  · rw [if_neg hcid, if_neg hns]

/-- C4 (witness): the amended theorem at the counterexample inputs. -/
theorem C4_witness :
    forward_result_to_client defaultConfig c4xSt c4xMsg
      = ⟨c4xSt, false, false⟩ :=
  C4_amended defaultConfig c4xSt c4xMsg (by decide)

/-! ## C5 — utterance_end emission -/

/-- Final stale result for the C5 counterexample: `is_final = true`,
translation disabled (unlock predicate holds), but `segment_id 3 ≤ 5`. -/
def c5xMsg : ResultMsg :=
  { client_id_present := true, segment_id := 3, text := "bye",
    translation := "", is_final := true }

/-- C5 (counterexample): at `c4xSt`/`c5xMsg` the claim's condition holds —
`is_final` is true and the unlock predicate is satisfied (translation
disabled) — yet no `utterance_end` is sent, because the stale segment id
fails the forward gate. The claimed "iff" is false. -/
theorem C5_counterexample :
    c5xMsg.is_final = true ∧
    c4xSt.sess.translation_enabled = false ∧
    c4xSt.websocket_present = true ∧
    (forward_result_to_client defaultConfig c4xSt c5xMsg).sent_utterance_end
      = false := by
  refine ⟨rfl, rfl, rfl, ?_⟩
  decide

/-- C5 (amended): an `utterance_end` message is sent iff the result is
deliverable and forwarded — the client id is present, the segment id beats
`latest_segment_id_sent`, the translation-mode filter passes, the websocket
is attached — AND `is_final` is true AND the unlock predicate is satisfied.
For forwarded results the unlock predicate is implied by the filter, so
within a session at most one `utterance_end` fires per final result that
reaches the client. -/
theorem C5_amended (cfg : Config) (st : RouterState) (r : ResultMsg) :
    (forward_result_to_client cfg st r).sent_utterance_end = true ↔
      (r.client_id_present = true ∧ r.is_final = true ∧
        unlock_predicate st r ∧ forward_gate st r ∧
        st.websocket_present = true) := by
  unfold forward_result_to_client
  dsimp only
  by_cases hcid : r.client_id_present = false
  · rw [if_pos hcid]
    simp [hcid]
  · rw [if_neg hcid]
    have hcid' : r.client_id_present = true :=
      (Bool.dichotomy r.client_id_present).resolve_left hcid
    by_cases hfwd : forward_gate st r
    · have hfwd' : (if st.sess.translation_enabled = true then
          r.segment_id > st.latest_segment_id_sent ∧
            stripped_nonempty r.translation = true
        else r.segment_id > st.latest_segment_id_sent) := hfwd
      rw [if_pos hfwd', apply_ite RouterOutcome.sent_utterance_end]
      dsimp only
      rw [ite_self]
      simp only [Bool.and_eq_true, Bool.or_eq_true, Bool.not_eq_true']
      unfold unlock_predicate
      constructor
      · rintro ⟨hws, hfin, hunlock⟩
        exact ⟨hcid', hfin, hunlock, hfwd, hws⟩
      · rintro ⟨-, hfin, hunlock, -, hws⟩
        exact ⟨hws, hfin, hunlock⟩
    · have hfwd' : ¬ (if st.sess.translation_enabled = true then
          r.segment_id > st.latest_segment_id_sent ∧
            stripped_nonempty r.translation = true
        else r.segment_id > st.latest_segment_id_sent) := hfwd
      rw [if_neg hfwd']
      constructor
      · intro h
        exact absurd h (by simp)
      · rintro ⟨-, -, -, hgate, -⟩
        exact absurd hgate hfwd

/-! ## Decimal digit lemmas for the serialization round trip -/

/-- The characters `natChars` can emit. -/
def goodDigit (c : Char) : Prop := ∃ d, d < 10 ∧ c = digitChar d

lemma goodDigit_isDigitChar {c : Char} (h : goodDigit c) :
    isDigitChar c = true := by
  obtain ⟨d, hd, rfl⟩ := h
  interval_cases d <;> decide

lemma goodDigit_not_ws {c : Char} (h : goodDigit c) :
    c.isWhitespace = false := by
  obtain ⟨d, hd, rfl⟩ := h
  interval_cases d <;> decide

lemma goodDigit_ne_minus {c : Char} (h : goodDigit c) : c ≠ '-' := by
  obtain ⟨d, hd, rfl⟩ := h
  interval_cases d <;> decide

lemma goodDigit_ne_plus {c : Char} (h : goodDigit c) : c ≠ '+' := by
  obtain ⟨d, hd, rfl⟩ := h
  interval_cases d <;> decide

lemma goodDigit_ne_dot {c : Char} (h : goodDigit c) : c ≠ '.' := by
  obtain ⟨d, hd, rfl⟩ := h
  interval_cases d <;> decide

lemma digitChar_toNat {d : ℕ} (h : d < 10) : (digitChar d).toNat = 48 + d := by
  interval_cases d <;> decide

/-- `dropWhile` keeps a list whose head (hence every element) fails `p`. -/
lemma dropWhile_eq_self_of_all {p : Char → Bool} {l : List Char}
    (h : ∀ c ∈ l, p c = false) : l.dropWhile p = l := by
  cases l with
  | nil => rfl
  | cons c cs => simp [List.dropWhile_cons, h c (by simp)]

/-- Stripping a fully non-whitespace string is the identity. -/
lemma stripChars_eq_self {l : List Char}
    (h : ∀ c ∈ l, c.isWhitespace = false) : stripChars l = l := by
  unfold stripChars
  rw [dropWhile_eq_self_of_all h,
    dropWhile_eq_self_of_all (fun c hc => h c (List.mem_reverse.mp hc)),
    List.reverse_reverse]

/-- The accumulator passes straight through `natCharsAux`. -/
lemma natCharsAux_append (fuel : ℕ) :
    ∀ (n : ℕ) (acc1 acc2 : List Char),
      natCharsAux fuel n (acc1 ++ acc2) = natCharsAux fuel n acc1 ++ acc2 := by
  induction fuel with
  | zero => intro n acc1 acc2; rfl
  | succ fuel ih =>
      intro n acc1 acc2
      unfold natCharsAux
      dsimp only
      split_ifs with h
      · rfl
      · exact ih (n / 10) (digitChar (n % 10) :: acc1) acc2

lemma natCharsAux_eq (fuel n : ℕ) (acc : List Char) :
    natCharsAux fuel n acc = natCharsAux fuel n [] ++ acc :=
  natCharsAux_append fuel n [] acc

/-- Every character `natCharsAux` emits is a decimal digit. -/
lemma natCharsAux_good (fuel : ℕ) :
    ∀ (n : ℕ) (acc : List Char), (∀ c ∈ acc, goodDigit c) →
      ∀ c ∈ natCharsAux fuel n acc, goodDigit c := by
  induction fuel with
  | zero => intro n acc hacc c hc; exact hacc c hc
  | succ fuel ih =>
      intro n acc hacc c hc
      unfold natCharsAux at hc
      dsimp only at hc
      have hacc' : ∀ x ∈ digitChar (n % 10) :: acc, goodDigit x := by
        intro x hx
        rcases List.mem_cons.mp hx with rfl | hx
        · exact ⟨n % 10, Nat.mod_lt n (by norm_num), rfl⟩
        · exact hacc x hx
      split_ifs at hc with h
      · exact hacc' c hc
      · exact ih (n / 10) (digitChar (n % 10) :: acc) hacc' c hc

lemma natChars_good (n : ℕ) : ∀ c ∈ natChars n, goodDigit c :=
  natCharsAux_good (n + 1) n [] (by intro c hc; cases hc)

/-- `natCharsAux` with a cons accumulator is never empty. -/
lemma natCharsAux_cons_ne_nil (fuel : ℕ) :
    ∀ (n : ℕ) (c : Char) (acc : List Char),
      natCharsAux fuel n (c :: acc) ≠ [] := by
  induction fuel with
  | zero => intro n c acc h; cases h
  | succ fuel ih =>
      intro n c acc
      unfold natCharsAux
      dsimp only
      split_ifs with h
      · intro hx; cases hx
      · exact ih (n / 10) (digitChar (n % 10)) (c :: acc)

lemma natChars_ne_nil (n : ℕ) : natChars n ≠ [] := by
  unfold natChars natCharsAux
  dsimp only
  split_ifs with h
  · intro hx; cases hx
  · exact natCharsAux_cons_ne_nil n (n / 10) (digitChar (n % 10)) []

/-- Appending one digit multiplies the value by ten and adds the digit. -/
lemma digitsVal_append_singleton (l : List Char) (c : Char) :
    digitsVal (l ++ [c]) = digitsVal l * 10 + (c.toNat - 48) := by
  unfold digitsVal
  rw [List.foldl_append]
  rfl

/-- Leading zeros do not change the decimal value. -/
lemma digitsVal_replicate_append (j : ℕ) (l : List Char) :
    digitsVal (List.replicate j '0' ++ l) = digitsVal l := by
  unfold digitsVal
  rw [List.foldl_append]
  have hz : List.foldl (fun a c => a * 10 + (c.toNat - 48)) 0
      (List.replicate j '0') = 0 := by
    induction j with
    | zero => rfl
    | succ j ih => rw [List.replicate_succ, List.foldl_cons]; simpa using ih
  rw [hz]

/-- `natCharsAux` prints the decimal expansion: with enough fuel the value
reads back. -/
lemma digitsVal_natCharsAux (fuel : ℕ) :
    ∀ n : ℕ, fuel ≠ 0 → n < 10 ^ fuel →
      digitsVal (natCharsAux fuel n []) = n := by
  induction fuel with
  | zero => intro n hf _; exact absurd rfl hf
  | succ fuel ih =>
      intro n _ hn
      unfold natCharsAux
      dsimp only
      split_ifs with h
      · have hn10 : n < 10 := by omega
        have : digitsVal [digitChar (n % 10)] = n % 10 := by
          have := digitChar_toNat (Nat.mod_lt n (by norm_num : (0:ℕ) < 10))
          unfold digitsVal
          simp [this]
        rw [this, Nat.mod_eq_of_lt hn10]
      · rw [natCharsAux_eq, digitsVal_append_singleton,
          ih (n / 10) ?_ ?_, digitChar_toNat (Nat.mod_lt n (by norm_num))]
        · omega
        · intro hf0
          rw [hf0] at hn
          simp [pow_succ] at hn
          omega
        · have : (10:ℕ) ^ (fuel + 1) = 10 ^ fuel * 10 := pow_succ 10 fuel
          omega

lemma digitsVal_natChars (n : ℕ) : digitsVal (natChars n) = n := by
  have h : n < 10 ^ (n + 1) :=
    lt_of_lt_of_le (Nat.lt_pow_self (by norm_num) n)
      (Nat.pow_le_pow_right (by norm_num) (Nat.le_succ n))
  exact digitsVal_natCharsAux (n + 1) n (Nat.succ_ne_zero n) h

lemma allDigits_natChars (n : ℕ) : allDigits (natChars n) = true := by
  unfold allDigits
  rw [List.all_eq_true]
  intro c hc
  exact goodDigit_isDigitChar (natChars_good n c hc)

/-- Any sufficient fuel produces the same digit string. -/
lemma natCharsAux_fuel_irrel (f : ℕ) :
    ∀ (g n : ℕ) (acc : List Char), f ≠ 0 → g ≠ 0 → n < 10 ^ f →
      n < 10 ^ g → natCharsAux f n acc = natCharsAux g n acc := by
  induction f with
  | zero => intro g n acc hf _ _ _; exact absurd rfl hf
  | succ f ih =>
      intro g n acc _ hg hnf hng
      cases g with
      | zero => exact absurd rfl hg
      | succ g =>
          unfold natCharsAux
          dsimp only
          split_ifs with h
          · rfl
          · have hf1 : (10:ℕ) ^ (f + 1) = 10 ^ f * 10 := pow_succ 10 f
            have hg1 : (10:ℕ) ^ (g + 1) = 10 ^ g * 10 := pow_succ 10 g
            have hfne : f ≠ 0 := by
              intro h0
              rw [h0] at hnf
              simp at hnf
              omega
            have hgne : g ≠ 0 := by
              intro h0
              rw [h0] at hng
              simp at hng
              omega
            have hf2 : (1:ℕ) ≤ 10 ^ f := Nat.one_le_pow f 10 (by norm_num)
            have hg2 : (1:ℕ) ≤ 10 ^ g := Nat.one_le_pow g 10 (by norm_num)
            exact ih g (n / 10) (digitChar (n % 10) :: acc) hfne hgne
              (by omega) (by omega)

lemma natCharsAux_length_le (fuel : ℕ) :
    ∀ (n : ℕ) (acc : List Char),
      (natCharsAux fuel n acc).length ≤ fuel + acc.length := by
  induction fuel with
  | zero => intro n acc; simp [natCharsAux]
  | succ fuel ih =>
      intro n acc
      unfold natCharsAux
      dsimp only
      split_ifs with h
      · simp only [List.length_cons]
        omega
      · calc (natCharsAux fuel (n / 10) (digitChar (n % 10) :: acc)).length
            ≤ fuel + (digitChar (n % 10) :: acc).length := ih _ _
          _ = fuel + 1 + acc.length := by simp; omega

/-- A natural below `10 ^ k` prints in at most `k` digits (`k ≥ 1`). -/
lemma natChars_length_le {n k : ℕ} (hk : k ≠ 0) (h : n < 10 ^ k) :
    (natChars n).length ≤ k := by
  unfold natChars
  rw [natCharsAux_fuel_irrel (n + 1) k n [] (Nat.succ_ne_zero n) hk
    (lt_of_lt_of_le (Nat.lt_pow_self (by norm_num) n)
      (Nat.pow_le_pow_right (by norm_num) (Nat.le_succ n))) h]
  simpa using natCharsAux_length_le k n []

/-- The padded fraction block has exactly `k` digits when `fp < 10 ^ k`. -/
lemma fracChars_length {k fp : ℕ} (hk : k ≠ 0) (h : fp < 10 ^ k) :
    (fracChars k fp).length = k := by
  unfold fracChars
  rw [List.length_append, List.length_replicate]
  have := natChars_length_le hk h
  omega

lemma digitsVal_fracChars (k fp : ℕ) : digitsVal (fracChars k fp) = fp := by
  unfold fracChars
  rw [digitsVal_replicate_append, digitsVal_natChars]

lemma fracChars_good (k fp : ℕ) : ∀ c ∈ fracChars k fp, goodDigit c := by
  intro c hc
  unfold fracChars at hc
  rcases List.mem_append.mp hc with hc | hc
  · rw [List.eq_of_mem_replicate hc]
    exact ⟨0, by norm_num, rfl⟩
  · exact natChars_good fp c hc

lemma allDigits_fracChars (k fp : ℕ) : allDigits (fracChars k fp) = true := by
  unfold allDigits
  rw [List.all_eq_true]
  intro c hc
  exact goodDigit_isDigitChar (fracChars_good k fp c hc)

/-- `takeWhile`/`dropWhile` split of `l1 ++ c :: t` when every element of
`l1` passes and `c` fails. -/
lemma takeWhile_append_cons {p : Char → Bool} {l1 : List Char} {c : Char}
    {t : List Char} (h : ∀ x ∈ l1, p x = true) (hc : p c = false) :
    (l1 ++ c :: t).takeWhile p = l1 ∧ (l1 ++ c :: t).dropWhile p = c :: t := by
  induction l1 with
  | nil => simp [List.takeWhile_cons, List.dropWhile_cons, hc]
  | cons a l ih =>
      have ha : p a = true := h a (by simp)
      have ih' := ih (fun x hx => h x (by simp [hx]))
      simp only [List.cons_append, List.takeWhile_cons, List.dropWhile_cons,
        ha]
      exact ⟨by rw [ih'.1]; simp, by rw [ih'.2]; simp⟩

/-- Python `int(str(n))` is the identity. -/
lemma pyInt_round_trip (n : ℤ) : pyInt? (pyStrInt n) = some n := by
  have hgood := natChars_good n.natAbs
  have hne := natChars_ne_nil n.natAbs
  have hstrip : stripChars (intChars n) = intChars n := by
    apply stripChars_eq_self
    intro c hc
    unfold intChars at hc
    rcases List.mem_append.mp hc with hc | hc
    · split_ifs at hc
      · rw [List.mem_singleton.mp hc]; decide
      · cases hc
    · exact goodDigit_not_ws (hgood c hc)
  show pyIntChars (intChars n) = some n
  unfold pyIntChars
  rw [hstrip]
  by_cases hneg : n < 0
  · have : intChars n = '-' :: natChars n.natAbs := by
      unfold intChars
      rw [if_pos hneg]
      rfl
    rw [this]
    dsimp only
    rw [if_pos rfl, if_pos ⟨hne, allDigits_natChars _⟩]
    congr 1
    rw [digitsVal_natChars]
    omega
  · have hic : intChars n = natChars n.natAbs := by
      unfold intChars
      rw [if_neg hneg]
      rfl
    rw [hic]
    rcases hnc : natChars n.natAbs with _ | ⟨c, cs⟩
    · exact absurd hnc hne
    · have hcg : goodDigit c := hgood c (by rw [hnc]; simp)
      dsimp only
      rw [if_neg (goodDigit_ne_minus hcg), if_neg (goodDigit_ne_plus hcg),
        if_pos (by rw [← hnc]; exact allDigits_natChars _)]
      have hv : digitsVal (c :: cs) = n.natAbs := by
        rw [← hnc]; exact digitsVal_natChars _
      rw [hv]
      congr 1
      omega

/-- No character of a printed float is whitespace. -/
lemma floatChars_not_ws (q : ℚ) : ∀ c ∈ floatChars q, c.isWhitespace = false := by
  intro c hc
  unfold floatChars at hc
  dsimp only at hc
  rcases List.mem_append.mp hc with hc | hc
  · rcases List.mem_append.mp hc with hc | hc
    · split_ifs at hc
      · rw [List.mem_singleton.mp hc]
        decide
      · cases hc
    · exact goodDigit_not_ws (natChars_good _ c hc)
  · rcases List.mem_cons.mp hc with rfl | hc
    · decide
    · exact goodDigit_not_ws (fracChars_good _ _ c hc)

lemma pyStrFloat_ne_empty (q : ℚ) : pyStrFloat q ≠ "" := by
  intro h
  have hd : floatChars q = [] := congrArg String.data h
  unfold floatChars at hd
  dsimp only at hd
  rcases List.append_eq_nil.mp hd with ⟨-, h3⟩
  cases h3

/-- Integer and fractional decimal parts reassemble the quotient. -/
lemma div_mod_val (T k : ℕ) :
    ((T / 10 ^ k : ℕ) : ℚ) + ((T % 10 ^ k : ℕ) : ℚ) / 10 ^ k
      = (T : ℚ) / 10 ^ k := by
  have h0 : ((10:ℚ) ^ k) ≠ 0 := by positivity
  field_simp
  norm_cast
  rw [mul_comm]
  exact Nat.div_add_mod T (10 ^ k)

/-- `takeWhile`/`dropWhile` at the decimal point, with the lambda exactly as
written in `pyFloatChars`. -/
lemma takeWhile_dot (l1 t : List Char) (h : ∀ x ∈ l1, goodDigit x) :
    (l1 ++ '.' :: t).takeWhile (fun x => x ≠ '.') = l1 ∧
    (l1 ++ '.' :: t).dropWhile (fun x => x ≠ '.') = '.' :: t := by
  apply takeWhile_append_cons
  · intro x hx
    simpa using goodDigit_ne_dot (h x hx)
  · simp

/-- Python `float(str(x))` is the identity on every rational with a
power-of-two denominator (exactly the values a Python float can hold). -/
lemma pyFloat_round_trip (q : ℚ) (hdy : q.den = 2 ^ exactLog2 q.den) :
    pyFloat? (pyStrFloat q) = some q := by
  show pyFloatChars (floatChars q) = some q
  unfold pyFloatChars
  rw [stripChars_eq_self (floatChars_not_ws q)]
  set k := exactLog2 q.den with hkdef
  set T := (q.num * 5 ^ k).natAbs with hTdef
  set ip := T / 10 ^ k with hipdef
  set fp := T % 10 ^ k with hfpdef
  have hfc : floatChars q =
      (if q.num < 0 then ['-'] else []) ++ natChars ip ++
        '.' :: fracChars k fp := rfl
  rw [hfc]
  have hfq : fp < 10 ^ k := by
    rw [hfpdef]
    exact Nat.mod_lt T (by positivity)
  have hL : fp = 0 ∨ (fracChars k fp).length = k := by
    rcases Nat.eq_zero_or_pos k with hk0 | hk0
    · left
      rw [hfpdef, hk0, pow_zero]
      exact Nat.mod_one T
    · right
      exact fracChars_length (by omega) hfq
  have hval : ∀ L : ℕ, (fp = 0 ∨ L = k) →
      (if q.num < 0 then (-1:ℚ) else 1) * ((ip : ℚ) + (fp : ℚ) / 10 ^ L)
        = q := by
    intro L hLL
    have h0 : ((10:ℚ) ^ k) ≠ 0 := by positivity
    have hipfp : (ip : ℚ) + (fp : ℚ) / 10 ^ L = (T : ℚ) / 10 ^ k := by
      rcases hLL with hfp0 | rfl
      · rw [hfp0]
        push_cast
        rw [zero_div, add_zero, eq_div_iff h0]
        have h := Nat.div_add_mod T (10 ^ k)
        rw [← hipdef, ← hfpdef, hfp0, add_zero] at h
        rw [mul_comm]
        exact_mod_cast h
      · rw [hipdef, hfpdef]
        exact div_mod_val T k
    have hT' : (if q.num < 0 then (-1:ℚ) else 1) * (T:ℚ)
        = (q.num : ℚ) * 5 ^ k := by
      split_ifs with hs
      · have hneg : q.num * 5 ^ k < 0 :=
          mul_neg_of_neg_of_pos hs (by positivity)
        have habs : ((T : ℕ) : ℤ) = -(q.num * 5 ^ k) := by
          rw [hTdef]
          omega
        have hcast : (T : ℚ) = -((q.num : ℚ) * 5 ^ k) := by
          exact_mod_cast habs
        rw [hcast]
        ring
      · push_neg at hs
        have hpos : 0 ≤ q.num * 5 ^ k := mul_nonneg hs (by positivity)
        have habs : ((T : ℕ) : ℤ) = q.num * 5 ^ k := by
          rw [hTdef]
          omega
        have hcast : (T : ℚ) = (q.num : ℚ) * 5 ^ k := by
          exact_mod_cast habs
        rw [hcast]
        ring
    have h10 : (10:ℚ) ^ k = 2 ^ k * 5 ^ k := by
      rw [← mul_pow]
      norm_num
    have hden : ((q.den : ℕ) : ℚ) = 2 ^ k := by
      rw [hdy]
      push_cast
      ring
    have h5ne : ((5:ℚ) ^ k) ≠ 0 := by positivity
    have h2ne : ((2:ℚ) ^ k) ≠ 0 := by positivity
    calc (if q.num < 0 then (-1:ℚ) else 1) * ((ip : ℚ) + (fp : ℚ) / 10 ^ L)
        = ((if q.num < 0 then (-1:ℚ) else 1) * (T:ℚ)) / 10 ^ k := by
          rw [hipfp]; ring
      _ = (q.num : ℚ) * 5 ^ k / (2 ^ k * 5 ^ k) := by rw [hT', h10]
      _ = (q.num : ℚ) / 2 ^ k := by
          field_simp
          ring
      _ = (q.num : ℚ) / ((q.den : ℕ) : ℚ) := by rw [hden]
      _ = q := Rat.num_div_den q
  by_cases hneg : q.num < 0
  · rw [if_pos hneg, List.singleton_append, List.cons_append]
    unfold pyFloatCharsCore
    rw [if_neg (by simp :
      ¬('-' :: (natChars ip ++ '.' :: fracChars k fp) = []))]
    dsimp only
    rw [show ('-' :: (natChars ip ++ '.' :: fracChars k fp)).headI = '-'
        from rfl,
      show ('-' :: (natChars ip ++ '.' :: fracChars k fp)).tail
        = natChars ip ++ '.' :: fracChars k fp from rfl,
      if_pos (rfl : ('-' : Char) = '-'), if_pos (Or.inl rfl),
      (takeWhile_dot (natChars ip) (fracChars k fp) (natChars_good ip)).1,
      (takeWhile_dot (natChars ip) (fracChars k fp) (natChars_good ip)).2,
      List.tail_cons]
    rw [if_pos ⟨allDigits_natChars ip, allDigits_fracChars k fp,
      Or.inl (natChars_ne_nil ip)⟩, digitsVal_natChars, digitsVal_fracChars]
    have hv := hval (fracChars k fp).length hL
    rw [if_pos hneg] at hv
    rw [hv]
  · rw [if_neg hneg, List.nil_append]
    rcases hnc : natChars ip with _ | ⟨c, cs⟩
    · exact absurd hnc (natChars_ne_nil ip)
    · have hcg : goodDigit c := natChars_good ip c (by rw [hnc]; simp)
      have hgood : ∀ x ∈ c :: cs, goodDigit x := by
        intro x hx
        exact natChars_good ip x (by rw [hnc]; exact hx)
      rw [List.cons_append]
      unfold pyFloatCharsCore
      rw [if_neg (by simp :
        ¬(c :: (cs ++ '.' :: fracChars k fp) = []))]
      dsimp only
      rw [show (c :: (cs ++ '.' :: fracChars k fp)).headI = c from rfl,
        show (c :: (cs ++ '.' :: fracChars k fp)).tail
          = cs ++ '.' :: fracChars k fp from rfl,
        if_neg (goodDigit_ne_minus hcg),
        if_neg (show ¬(c = '-' ∨ c = '+') by
          rintro (h | h)
          · exact goodDigit_ne_minus hcg h
          · exact goodDigit_ne_plus hcg h),
        ← List.cons_append,
        (takeWhile_dot (c :: cs) (fracChars k fp) hgood).1,
        (takeWhile_dot (c :: cs) (fracChars k fp) hgood).2,
        List.tail_cons]
      rw [if_pos ⟨by rw [← hnc]; exact allDigits_natChars ip,
        allDigits_fracChars k fp, Or.inl (by simp)⟩]
      rw [show digitsVal (c :: cs) = ip from by
        rw [← hnc]; exact digitsVal_natChars ip, digitsVal_fracChars]
      have hv := hval (fracChars k fp).length hL
      rw [if_neg hneg] at hv
      rw [hv]

/-- A rational representable as a Python float: power-of-two denominator. -/
def dyadicOpt : Option ℚ → Prop
  | none => True
  | some q => q.den = 2 ^ exactLog2 q.den

lemma intFieldVal_round (n : ℤ) : intFieldVal (some (pyStrInt n)) = n := by
  unfold intFieldVal
  dsimp only
  rw [pyInt_round_trip]

lemma floatFieldVal_round (o : Option ℚ) (h : dyadicOpt o) :
    floatFieldVal (some (pyStrOptFloat o)) = o := by
  cases o with
  | none => rfl
  | some q =>
      unfold floatFieldVal pyStrOptFloat
      dsimp only
      rw [if_neg (pyStrFloat_ne_empty q), pyFloat_round_trip q h]

lemma parseState_round (st : SpeechState) :
    parseState (stateValue st) = some st := by
  cases st <;> rfl

lemma pyStrBool_round (b : Bool) :
    decide (pyLowerStr (pyStrBool b) = "true") = b := by
  cases b <;> decide

lemma intFieldVal_malformed {v : String} (h : pyInt? v = none) :
    intFieldVal (some v) = 0 := by
  unfold intFieldVal
  dsimp only
  rw [h]

lemma floatFieldVal_malformed {v : String} (h : v = "" ∨ pyFloat? v = none) :
    floatFieldVal (some v) = none := by
  unfold floatFieldVal
  dsimp only
  rcases h with rfl | h
  · rw [if_pos rfl]
  · by_cases he : v = ""
    · rw [if_pos he]
    · rw [if_neg he, h]

/-- C8: `save_session` followed by `load_session` returns the stored session
unchanged — state, every scalar field, and both audio buffers byte-for-byte —
for every prior store contents and every session whose timestamps are dyadic
rationals, i.e. exactly the values a Python float can carry. -/
theorem C8_round_trip (store : SessionStore) (s : SpeechSession)
    (h1 : dyadicOpt s.silence_start_time)
    (h2 : dyadicOpt s.session_start_time)
    (h3 : dyadicOpt s.last_stt_send_time) :
    load_session (save_session store s) = some s := by
  obtain ⟨st, ab, pb, sst, tst, acc, lst, lp, sbl, sl, tl, te⟩ := s
  unfold save_session load_session SpeechSession.to_dict
    SpeechSession.from_dict
  dsimp only
  rw [parseState_round]
  simp only [intFieldVal_round, pyStrBool_round, Option.getD_some,
    floatFieldVal_round _ h1, floatFieldVal_round _ h2,
    floatFieldVal_round _ h3]
  by_cases hab : ab = [] <;> by_cases hpb : pb = [] <;>
    simp [hab, hpb]

/-- A concrete dyadic timestamp, one half. -/
def c8q : ℚ := ⟨1, 2, by norm_num, Nat.coprime_one_left 2⟩

def c8wStore : SessionStore := {}

def c8wSess : SpeechSession :=
  { state := .ACTIVE, audio_buffer := [7, 8], pre_speech_buffer := [],
    silence_start_time := some c8q, session_start_time := some 3,
    accumulated_audio_bytes := 5, last_stt_send_time := none,
    last_published_len := -2, silence_buffer_start_len := 1,
    source_lang := "en", target_lang := "vi", translation_enabled := false }

/-- C8 (witness): the round trip at a concrete session with a nonempty audio
buffer, an empty pre-speech buffer, and timestamps 1/2, 3 and absent. -/
theorem C8_witness :
    load_session (save_session c8wStore c8wSess) = some c8wSess :=
  C8_round_trip c8wStore c8wSess rfl
    (show (3:ℚ).den = 2 ^ exactLog2 (3:ℚ).den by
      norm_num [Rat.den_ofNat, exactLog2, log2Fuel])
    trivial

/-- C10: decoding is total on corrupted scalar values: whenever the stored
`state` string is one of the three enum values, `from_dict` succeeds, and in
the decoded session a non-integer string in either length counter or the
byte count decodes to 0, while an empty or non-float string in any of the
three timestamps decodes to `None`. -/
theorem C10_malformed_scalars (d : StoredScalars) (bufs : BufferArgs)
    (hst : ∀ v, d.state = some v → parseState v ≠ none) :
    ∃ s, SpeechSession.from_dict d bufs = some s ∧
      (∀ v, d.accumulated_audio_bytes = some v → pyInt? v = none →
        s.accumulated_audio_bytes = 0) ∧
      (∀ v, d.last_published_len = some v → pyInt? v = none →
        s.last_published_len = 0) ∧
      (∀ v, d.silence_buffer_start_len = some v → pyInt? v = none →
        s.silence_buffer_start_len = 0) ∧
      (∀ v, d.silence_start_time = some v → (v = "" ∨ pyFloat? v = none) →
        s.silence_start_time = none) ∧
      (∀ v, d.session_start_time = some v → (v = "" ∨ pyFloat? v = none) →
        s.session_start_time = none) ∧
      (∀ v, d.last_stt_send_time = some v → (v = "" ∨ pyFloat? v = none) →
        s.last_stt_send_time = none) := by
  unfold SpeechSession.from_dict
  dsimp only
  rcases hd : d.state with _ | sv
  · refine ⟨_, rfl, ?_, ?_, ?_, ?_, ?_, ?_⟩ <;>
      intro v hv hm <;> dsimp only <;> rw [hv]
    · exact intFieldVal_malformed hm
    · exact intFieldVal_malformed hm
    · exact intFieldVal_malformed hm
    · exact floatFieldVal_malformed hm
    · exact floatFieldVal_malformed hm
    · exact floatFieldVal_malformed hm
  · dsimp only
    rcases hpv : parseState sv with _ | st
    · exact absurd hpv (hst sv hd)
    · refine ⟨_, rfl, ?_, ?_, ?_, ?_, ?_, ?_⟩ <;>
        intro v hv hm <;> dsimp only <;> rw [hv]
      · exact intFieldVal_malformed hm
      · exact intFieldVal_malformed hm
      · exact intFieldVal_malformed hm
      · exact floatFieldVal_malformed hm
      · exact floatFieldVal_malformed hm
      · exact floatFieldVal_malformed hm

/-- Malformed stored scalars for the C10 witness. -/
def c10d : StoredScalars :=
  { state := some "active", silence_start_time := some "abc",
    session_start_time := some "", accumulated_audio_bytes := some "12x",
    last_stt_send_time := some "1.2.3", last_published_len := some "",
    silence_buffer_start_len := some "--7", source_lang := some "en",
    target_lang := some "vi", translation_enabled := some "garbage" }

/-- C10 (witness): the totality theorem at a store full of malformed
numeric and timestamp strings. -/
theorem C10_witness :
    ∃ s, SpeechSession.from_dict c10d {} = some s ∧
      (∀ v, c10d.accumulated_audio_bytes = some v → pyInt? v = none →
        s.accumulated_audio_bytes = 0) ∧
      (∀ v, c10d.last_published_len = some v → pyInt? v = none →
        s.last_published_len = 0) ∧
      (∀ v, c10d.silence_buffer_start_len = some v → pyInt? v = none →
        s.silence_buffer_start_len = 0) ∧
      (∀ v, c10d.silence_start_time = some v → (v = "" ∨ pyFloat? v = none) →
        s.silence_start_time = none) ∧
      (∀ v, c10d.session_start_time = some v → (v = "" ∨ pyFloat? v = none) →
        s.session_start_time = none) ∧
      (∀ v, c10d.last_stt_send_time = some v → (v = "" ∨ pyFloat? v = none) →
        s.last_stt_send_time = none) :=
  C10_malformed_scalars c10d {} (by
    intro v hv
    injection hv with h
    rw [← h]
    decide)

end NovaVoice
